import Mathlib

/-!
Verification of the client-side synchronization layer of the
agent-operated-desktop chat application: the event store reducer, the
event tracker, the session store, the persistence adapter and the
rate-limit retry controller, shallowly embedded from the TypeScript
sources.
-/

/-! ## Event data model (src/lib/types/events) -/

/-- Event status, from the `EventStatus` union type. -/
inductive EventStatus
  | pending
  | complete
  | error
deriving DecidableEq, Repr

/-- Agent activity status, from the `AgentStatus` union type. -/
inductive AgentStatus
  | idle
  | thinking
  | executing
deriving DecidableEq, Repr

/-- Computer action names, from the `ComputerAction` union type. -/
inductive ComputerAction
  | screenshot
  | left_click
  | right_click
  | double_click
  | mouse_move
  | type
  | key
  | scroll
  | wait
  | left_click_drag
deriving DecidableEq, Repr

/-- Scroll direction, from `ComputerEventPayload.scroll_direction`. -/
inductive ScrollDirection
  | up
  | down
deriving DecidableEq, Repr

/-- Payload of a computer event, from the `ComputerEventPayload` interface.
Optional fields of the TypeScript interface are `Option`s. -/
structure ComputerEventPayload where
  action : ComputerAction
  coordinate : Option (Int × Int) := none
  text : Option String := none
  duration : Option Int := none
  scroll_amount : Option Int := none
  scroll_direction : Option ScrollDirection := none
  start_coordinate : Option (Int × Int) := none
deriving DecidableEq, Repr

/-- Payload of a bash event, from the `BashEventPayload` interface. The
`command` field is populated by an unchecked cast of `args.command`, which
may be absent at runtime, hence `Option`. -/
structure BashEventPayload where
  command : Option String
deriving DecidableEq, Repr

/-- Result kind of a tool result, from `ToolResult.type`. -/
inductive ResultKind
  | text
  | image
deriving DecidableEq, Repr

/-- Tool result, from the `ToolResult` interface. -/
structure ToolResult where
  type : ResultKind
  data : Option String := none
  text : Option String := none
  mimeType : Option String := none
deriving DecidableEq, Repr

/-- Discriminated payload of an `AgentEvent`. In the source the
discriminant is carried redundantly by the `type`/`toolType` fields and
the payload shape (`ComputerEvent` versus `BashEvent`); the embedding
represents all three by the payload constructor. -/
inductive EventPayload
  | computer (p : ComputerEventPayload)
  | bash (p : BashEventPayload)
deriving DecidableEq, Repr

/-- Agent event, from the `AgentEvent = ComputerEvent | BashEvent` union:
the common fields of both union members plus the discriminated payload. -/
structure AgentEvent where
  id : String
  timestamp : Int
  payload : EventPayload
  status : EventStatus
  duration : Option Int := none
  error : Option String := none
  result : Option ToolResult := none
deriving DecidableEq, Repr

/-- Event counts per action kind, from the `EventCounts` record type
(ten computer actions plus bash). -/
structure EventCounts where
  screenshot : Nat
  left_click : Nat
  right_click : Nat
  double_click : Nat
  mouse_move : Nat
  type : Nat
  key : Nat
  scroll : Nat
  wait : Nat
  left_click_drag : Nat
  bash : Nat
deriving DecidableEq, Repr

/-- Zero counts, from `createInitialEventCounts`. -/
def createInitialEventCounts : EventCounts :=
  { screenshot := 0, left_click := 0, right_click := 0, double_click := 0
    mouse_move := 0, type := 0, key := 0, scroll := 0, wait := 0
    left_click_drag := 0, bash := 0 }

/-- Increment the counter of one computer action (the
`counts[actionType] = (counts[actionType] || 0) + 1` line of
`calculateEventCounts`, resolved per action). -/
def incAction (c : EventCounts) (a : ComputerAction) : EventCounts :=
  match a with
  | .screenshot => { c with screenshot := c.screenshot + 1 }
  | .left_click => { c with left_click := c.left_click + 1 }
  | .right_click => { c with right_click := c.right_click + 1 }
  | .double_click => { c with double_click := c.double_click + 1 }
  | .mouse_move => { c with mouse_move := c.mouse_move + 1 }
  | .type => { c with type := c.type + 1 }
  | .key => { c with key := c.key + 1 }
  | .scroll => { c with scroll := c.scroll + 1 }
  | .wait => { c with wait := c.wait + 1 }
  | .left_click_drag => { c with left_click_drag := c.left_click_drag + 1 }

/-- Full recount of events, from `calculateEventCounts`
(src/lib/utils/event-helpers.ts). -/
def calculateEventCounts (events : List AgentEvent) : EventCounts :=
  events.foldl
    (fun counts event =>
      match event.payload with
      | .computer p => incAction counts p.action
      | .bash _ => { counts with bash := counts.bash + 1 })
    createInitialEventCounts

/-! ## Event store reducer (src/components/tool-call-details.tsx) -/

/-- Event store state, from the `EventStore` interface. -/
structure EventStore where
  events : List AgentEvent
  counts : EventCounts
  agentStatus : AgentStatus
  selectedEventId : Option String
deriving DecidableEq, Repr

/-- Initial event store state, from `initialState`. -/
def initialEventStore : EventStore :=
  { events := [], counts := createInitialEventCounts
    agentStatus := .idle, selectedEventId := none }

/-- The `Partial<AgentEvent>` update record at the shape dispatched by the
event tracker: the `UPDATE_EVENT` payload always carries these four keys
(possibly with `undefined` value, which still overwrites on spread). -/
structure UpdatePatch where
  status : EventStatus
  duration : Option Int
  result : Option ToolResult
  error : Option String
deriving DecidableEq, Repr

/-- Spread of an update patch over an event, from
`{ ...event, ...action.updates }` in the `UPDATE_EVENT` branch. -/
def applyPatch (e : AgentEvent) (u : UpdatePatch) : AgentEvent :=
  { e with status := u.status, duration := u.duration
           result := u.result, error := u.error }

/-- Event store actions, from the `EventStoreAction` union. -/
inductive EventStoreAction
  | addEvent (event : AgentEvent)
  | updateEvent (id : String) (updates : UpdatePatch)
  | setAgentStatus (status : AgentStatus)
  | selectEvent (eventId : Option String)
  | clearEvents
  | loadEvents (events : List AgentEvent)
deriving Repr

/-- The event store reducer, from `eventStoreReducer`. -/
def eventStoreReducer (state : EventStore) (action : EventStoreAction) :
    EventStore :=
  match action with
  | .addEvent event =>
    let newEvents := state.events ++ [event]
    { state with events := newEvents, counts := calculateEventCounts newEvents }
  | .updateEvent id updates =>
    let newEvents := state.events.map fun event =>
      if event.id = id then applyPatch event updates else event
    { state with events := newEvents, counts := calculateEventCounts newEvents }
  | .setAgentStatus status => { state with agentStatus := status }
  | .selectEvent eventId => { state with selectedEventId := eventId }
  | .clearEvents => initialEventStore
  | .loadEvents events =>
    { state with events := events, counts := calculateEventCounts events }

/-- Click handler of a tool-call card, from `handleClick`
(src/components/tool-call-details.tsx): toggles the selection of the
clicked tool call. -/
def handleClick (toolCallId : String) (state : EventStore) : EventStore :=
  if state.selectedEventId = some toolCallId then
    eventStoreReducer state (.selectEvent none)
  else
    eventStoreReducer state (.selectEvent (some toolCallId))

/-- Selected-event selector, from `useSelectedEvent`
(src/lib/hooks/use-event-store.ts). The guard
`if (!state.selectedEventId) return null` is a JavaScript truthiness
check, so the empty-string id also yields `none`. -/
def useSelectedEvent (state : EventStore) : Option AgentEvent :=
  match state.selectedEventId with
  | none => none
  | some id =>
    if id = "" then none
    else state.events.find? fun e => e.id = id

/-- Sample computer event used by concrete counterexamples. -/
def sampleEventA : AgentEvent :=
  { id := "a", timestamp := 0
    payload := .computer { action := .screenshot }, status := .pending }

/-! ## Claims C6, C9, C10: event store reducer properties -/

/-- Claim C6, counterexample: the `ADD_EVENT` branch performs no duplicate
check. Adding the same event twice from the initial state yields a log with
two events carrying id `a`, so the add is neither a failure nor a no-op and
the claimed per-id uniqueness of the log is violated. -/
theorem addEvent_duplicate_id_counterexample :
    (eventStoreReducer (eventStoreReducer initialEventStore
        (.addEvent sampleEventA)) (.addEvent sampleEventA)).events.map
        (fun e => e.id) = ["a", "a"] ∧
    (eventStoreReducer (eventStoreReducer initialEventStore
        (.addEvent sampleEventA)) (.addEvent sampleEventA)).events ≠
      (eventStoreReducer initialEventStore (.addEvent sampleEventA)).events := by
  decide

/-- Claim C6 (amended): `addEvent` appends the given event unconditionally,
preserving every existing event unmodified (it never overwrites); the event
log may therefore contain several events with the same id, and at-most-once
insertion is the responsibility of the caller (the Event Tracker). -/
theorem addEvent_appends_unconditionally (state : EventStore)
    (event : AgentEvent) :
    (eventStoreReducer state (.addEvent event)).events =
      state.events ++ [event] := by
  rfl

/-- Claim C9, counterexample: dispatching `SELECT_EVENT` with the same id
twice leaves that id selected; the reducer-level `selectEvent` is a plain
set, not a toggle, so the toggle law fails at the store API. -/
theorem selectEvent_twice_counterexample :
    (eventStoreReducer (eventStoreReducer initialEventStore
        (.selectEvent (some "a"))) (.selectEvent (some "a"))).selectedEventId
      = some "a" ∧
    (eventStoreReducer (eventStoreReducer initialEventStore
        (.selectEvent (some "a"))) (.selectEvent (some "a"))).selectedEventId
      ≠ none := by
  decide

/-- Claim C9 (amended): click-to-deselect lives in the tool-call card's
`handleClick`, which dispatches `selectEvent(null)` exactly when the clicked
id is already selected. Hence two successive clicks on the same id end with
no selection, provided that id was not already selected at the start (from a
state where it is selected, two clicks re-select it). -/
theorem handleClick_toggle (state : EventStore) (id : String)
    (h : state.selectedEventId ≠ some id) :
    (handleClick id (handleClick id state)).selectedEventId = none := by
  unfold handleClick eventStoreReducer
  simp [h]

/-- Claim C9 witness: two clicks on event `a` from the initial state (where
nothing is selected) end with no selection. -/
theorem handleClick_toggle_witness :
    (handleClick "a" (handleClick "a" initialEventStore)).selectedEventId
      = none :=
  handleClick_toggle initialEventStore "a" (by decide)

/-- Claim C10: `LOAD_EVENTS` replaces only the events and the counts
(recomputed by full recount), leaving `selectedEventId` and `agentStatus`
untouched; and whenever the selected id matches no event in the log, the
selected-event selector returns `none` rather than failing. -/
theorem loadEvents_frame_and_selector_total (s : EventStore)
    (events : List AgentEvent) :
    ((eventStoreReducer s (.loadEvents events)).selectedEventId =
        s.selectedEventId ∧
      (eventStoreReducer s (.loadEvents events)).agentStatus =
        s.agentStatus ∧
      (eventStoreReducer s (.loadEvents events)).events = events ∧
      (eventStoreReducer s (.loadEvents events)).counts =
        calculateEventCounts events) ∧
    (∀ t : EventStore, (∀ e ∈ t.events, some e.id ≠ t.selectedEventId) →
      useSelectedEvent t = none) := by
  refine ⟨⟨rfl, rfl, rfl, rfl⟩, ?_⟩
  intro t ht
  unfold useSelectedEvent
  match hsel : t.selectedEventId with
  | none => rfl
  | some id =>
    by_cases hid : id = ""
    · simp [hid]
    · simp only [hid, if_false]
      rw [List.find?_eq_none]
      intro e he
      have := ht e he
      rw [hsel] at this
      simp only [decide_eq_true_eq]
      intro hcontra
      exact this (by rw [hcontra])

/-- Claim C10 witness: loading an empty event list keeps a previously
selected id and a non-idle agent status, and the selector returns `none`
on a store whose selected id points at no event. -/
theorem loadEvents_frame_and_selector_total_witness :
    ((eventStoreReducer { initialEventStore with
        selectedEventId := some "z", agentStatus := .executing }
        (.loadEvents [])).selectedEventId = some "z") ∧
    useSelectedEvent { initialEventStore with
        selectedEventId := some "z", events := [sampleEventA] } = none := by
  constructor
  · exact (loadEvents_frame_and_selector_total
      { initialEventStore with
        selectedEventId := some "z", agentStatus := .executing } []).1.1
  · exact (loadEvents_frame_and_selector_total initialEventStore []).2
      { initialEventStore with
        selectedEventId := some "z", events := [sampleEventA] }
      (by decide)

/-! ## Message stream model (the transport collaborator surface) -/

/-- UTF-16 code-unit view of a JavaScript string, used where code-unit
level operations (slice, surrogate pairs) matter. -/
abbrev JSStr := List Nat

/-- Code units of an ASCII Lean string literal. -/
def jsStr (s : String) : JSStr := s.data.map Char.toNat

/-- Message roles of the transport message type. -/
inductive Role
  | system
  | user
  | assistant
  | data
deriving DecidableEq, Repr

/-- Transport-level status of the chat, from the
`error | submitted | streaming | ready` union. -/
inductive ChatStatus
  | submitted
  | streaming
  | ready
  | error
deriving DecidableEq, Repr

/-- Lifecycle phase of a tool invocation part, from
`toolInvocation.state`. -/
inductive ToolPhase
  | call
  | result
deriving DecidableEq, Repr

/-- Raw result carried by a result-phase tool invocation: a plain string,
an object tagged image with data, an object tagged text with text, or any
other shape. -/
inductive RawResult
  | str (s : String)
  | image (data : String)
  | textObj (t : String)
  | other
deriving DecidableEq, Repr

/-- Arguments of a tool invocation as read (with unchecked casts) by the
event tracker. The `action` field is assumed well-typed for computer
calls, mirroring the source's `args.action as ...` cast. -/
structure ToolArgs where
  action : ComputerAction
  coordinate : Option (Int × Int) := none
  text : Option String := none
  duration : Option Int := none
  scroll_amount : Option Int := none
  scroll_direction : Option ScrollDirection := none
  start_coordinate : Option (Int × Int) := none
  command : Option String := none
deriving DecidableEq, Repr

/-- A tool-invocation part's payload, from the transport's
`{toolCallId, toolName, state, args, result?}` shape. -/
structure ToolInvocation where
  toolCallId : String
  toolName : String
  state : ToolPhase
  args : ToolArgs
  result : Option RawResult := none
deriving DecidableEq, Repr

/-- Item of a legacy array-shaped message content. -/
inductive ContentItem
  | strItem (s : JSStr)
  | objItem (type : Option String) (text : Option JSStr)
  | otherItem
deriving DecidableEq, Repr

/-- Message content: a string, a legacy array, or absent. -/
inductive JSContent
  | strC (s : JSStr)
  | arrC (items : List ContentItem)
  | undef
deriving DecidableEq, Repr

/-- A message part (`Part` in the source): text, tool invocation, or anything else. -/
inductive MsgPart
  | text (text : JSStr)
  | toolInvocation (toolInvocation : ToolInvocation)
  | otherPart
deriving DecidableEq, Repr

/-- A transport message (`UIMessage`): role, content and optional parts
array. -/
structure UIMessage where
  id : String
  role : Role
  content : JSContent := .undef
  parts : Option (List MsgPart) := none
deriving DecidableEq, Repr

/-! ## Event tracker (useEventTracker, src/unnamed/part_011) -/

/-- Whether a part is a tool invocation still in the call phase (the
predicate inside `hasAnyPendingTool`). -/
def partIsPendingTool (p : MsgPart) : Bool :=
  match p with
  | .toolInvocation inv => inv.state == ToolPhase.call
  | _ => false

/-- Whether any tool call anywhere in the stream is still in the call
phase, from `hasAnyPendingTool`. A message without a parts array
contributes nothing (optional chaining yields a falsy result). -/
def hasAnyPendingTool (messages : List UIMessage) : Bool :=
  messages.any fun msg => (msg.parts.getD []).any partIsPendingTool

/-- Whether all tool invocations of the last message carry results, from
`lastMessageAllToolsComplete`; absent last message or parts array defaults
to true (the `?? true`). -/
def lastMessageAllToolsComplete (messages : List UIMessage) : Bool :=
  match messages.getLast? with
  | none => true
  | some m =>
    match m.parts with
    | none => true
    | some ps =>
      ps.all fun p =>
        match p with
        | .toolInvocation inv => inv.state == ToolPhase.result
        | _ => true

/-- Agent-status derivation, from the status-tracking block of
`useEventTracker` (lines 22 to 74 of the source file). -/
def deriveAgentStatus (messages : List UIMessage)
    (chatStatus : Option ChatStatus) : AgentStatus :=
  let isChatReady := chatStatus == some ChatStatus.ready
  let hasError := chatStatus == some ChatStatus.error
  let pending := hasAnyPendingTool messages
  let lastAllComplete := lastMessageAllToolsComplete messages
  if hasError then .idle
  else
    match messages.getLast? with
    | some m =>
      if m.role == Role.assistant then
        if pending then .executing
        else if !isChatReady || !lastAllComplete then .thinking
        else .idle
      else if m.role == Role.user then
        if isChatReady && !pending then .idle
        else if pending then .executing
        else .thinking
      else .idle
    | none =>
      if isChatReady && !pending then .idle
      else if pending then .executing
      else .thinking

/-- Mutable state of the event tracker: the applied `(toolCallId, phase)`
set (`processedToolCalls`), the start-instant map (`eventStartTimes`) and
the event store it drives. -/
structure TrackerState where
  processed : List (String × ToolPhase)
  startTimes : List (String × Int)
  store : EventStore
deriving Repr

/-- Initial tracker state: empty applied set, empty start times, initial
store. -/
def initialTrackerState : TrackerState :=
  { processed := [], startTimes := [], store := initialEventStore }

/-- JavaScript `Map.set`: overwrite-or-insert a binding. -/
def mapSet (m : List (String × Int)) (k : String) (v : Int) :
    List (String × Int) :=
  (k, v) :: m.filter fun kv => kv.1 != k

/-- JavaScript `Map.get`: the current binding if any. -/
def mapGet (m : List (String × Int)) (k : String) : Option Int :=
  (m.find? fun kv => kv.1 == k).map fun kv => kv.2

/-- JavaScript `Map.delete`: drop the binding. -/
def mapDelete (m : List (String × Int)) (k : String) :
    List (String × Int) :=
  m.filter fun kv => kv.1 != k

/-- Result classification on a result-phase delta, from the
`toolResult` computation: a truthy string becomes a text result, a tagged
image object an image result with png mime type, a tagged text object a
text result, anything else stays undefined. -/
def classifyResult (result : Option RawResult) : Option ToolResult :=
  match result with
  | none => none
  | some (.str s) =>
    if s = "" then none else some { type := .text, text := some s }
  | some (.image d) =>
    some { type := .image, data := some d, mimeType := some "image/png" }
  | some (.textObj t) => some { type := .text, text := some t }
  | some .other => none

/-- Error classification on a result-phase delta, from `isError`: the
literal abort sentinel or a string starting with the error marker. -/
def resultIsError (result : Option RawResult) : Bool :=
  match result with
  | some (.str s) => s == "User aborted" || s.startsWith "Error"
  | _ => false

/-- The error message recorded on an error result (the ternary in the
`updateEvent` call). -/
def resultErrorField (result : Option RawResult) : Option String :=
  if resultIsError result then
    match result with
    | some (.str s) => some s
    | _ => some "Unknown error"
  else none

/-- Processing of one tool-invocation delta, from the body of the part
loop of `useEventTracker`: an applied `(id, phase)` pair is skipped
unconditionally; a call-phase delta records a start instant and (for a
recognized tool) adds a pending event; a result-phase delta updates the
event with status, duration, classified result and error. An
unrecognized tool name on a call still records the start instant (the
`set` precedes the tool-name dispatch) but adds nothing and is not marked
applied. The created events and the dispatched update are split into
named definitions below; `processInvocation` glues them.

The pending computer event created on a call-phase delta of the computer
tool. -/
def computerEventOf (now : Int) (inv : ToolInvocation) : AgentEvent :=
  { id := inv.toolCallId, timestamp := now
    payload := .computer
      { action := inv.args.action
        coordinate := inv.args.coordinate
        text := inv.args.text
        duration := inv.args.duration
        scroll_amount := inv.args.scroll_amount
        scroll_direction := inv.args.scroll_direction
        start_coordinate := inv.args.start_coordinate }
    status := .pending }

/-- The pending bash event created on a call-phase delta of the bash
tool. -/
def bashEventOf (now : Int) (inv : ToolInvocation) : AgentEvent :=
  { id := inv.toolCallId, timestamp := now
    payload := .bash { command := inv.args.command }
    status := .pending }

/-- The update dispatched on a result-phase delta: status per error
classification, duration from the recorded start instant if any,
classified result and error message. -/
def resultPatchOf (now : Int) (s : TrackerState) (inv : ToolInvocation) :
    UpdatePatch :=
  { status := if resultIsError inv.result then .error else .complete
    duration := (mapGet s.startTimes inv.toolCallId).map fun t => now - t
    result := classifyResult inv.result
    error := resultErrorField inv.result }

/-- Processing of one tool-invocation delta, continued: the dispatch on
the applied set and the lifecycle phase. -/
def processInvocation (now : Int) (s : TrackerState)
    (inv : ToolInvocation) : TrackerState :=
  let stateKey := (inv.toolCallId, inv.state)
  if s.processed.contains stateKey then s
  else
    match inv.state with
    | .call =>
      let startTimes := mapSet s.startTimes inv.toolCallId now
      if inv.toolName = "computer" then
        { processed := stateKey :: s.processed
          startTimes := startTimes
          store := eventStoreReducer s.store
            (.addEvent (computerEventOf now inv)) }
      else if inv.toolName = "bash" then
        { processed := stateKey :: s.processed
          startTimes := startTimes
          store := eventStoreReducer s.store
            (.addEvent (bashEventOf now inv)) }
      else { s with startTimes := startTimes }
    | .result =>
      { processed := stateKey :: s.processed
        startTimes := mapDelete s.startTimes inv.toolCallId
        store := eventStoreReducer s.store
          (.updateEvent inv.toolCallId (resultPatchOf now s inv)) }

/-- Processing of one message part: only tool invocations do anything. -/
def processPart (now : Int) (s : TrackerState) (p : MsgPart) : TrackerState :=
  match p with
  | .toolInvocation inv => processInvocation now s inv
  | _ => s

/-- Processing of one message: messages without a parts array are
skipped. -/
def processMessage (now : Int) (s : TrackerState) (m : UIMessage) :
    TrackerState :=
  match m.parts with
  | none => s
  | some ps => ps.foldl (processPart now) s

/-- One run of the tracker effect over the current stream: set the
derived agent status, then (unless the transport reported an error, which
returns early) re-scan every message's parts. -/
def trackerTick (now : Int) (messages : List UIMessage)
    (chatStatus : Option ChatStatus) (s : TrackerState) : TrackerState :=
  let s1 := { s with
    store := eventStoreReducer s.store
      (.setAgentStatus (deriveAgentStatus messages chatStatus)) }
  if chatStatus == some ChatStatus.error then s1
  else messages.foldl (processMessage now) s1

/-- One replay pass delivered to the tracker: a stream snapshot with its
transport status and the current instant. -/
structure TrackerPass where
  now : Int
  messages : List UIMessage
  chatStatus : Option ChatStatus

/-- Tracker run over a sequence of replay passes from a given state. -/
def runTrackerFrom (s : TrackerState) (passes : List TrackerPass) :
    TrackerState :=
  passes.foldl (fun s p => trackerTick p.now p.messages p.chatStatus s) s

/-- Tracker run over a sequence of replay passes from the initial
state. -/
def runTracker (passes : List TrackerPass) : TrackerState :=
  runTrackerFrom initialTrackerState passes

/-- Event ids currently materialized in the tracker's store. -/
def trackerIds (s : TrackerState) : List String :=
  s.store.events.map AgentEvent.id

/-- Whether a tool invocation creates an event when first seen: call
phase with a recognized tool name. -/
def invocationCreates (inv : ToolInvocation) : Bool :=
  inv.state == ToolPhase.call &&
    (inv.toolName == "computer" || inv.toolName == "bash")

/-- Whether a part is an event-creating call delta for id `x`. -/
def partCreates (x : String) (p : MsgPart) : Bool :=
  match p with
  | .toolInvocation inv => invocationCreates inv && inv.toolCallId == x
  | _ => false

/-- Whether a message holds an event-creating call delta for id `x`. -/
def messageCreates (x : String) (m : UIMessage) : Bool :=
  (m.parts.getD []).any (partCreates x)

/-- Whether a replay pass holds an event-creating call delta for id
`x`. -/
def passCreates (x : String) (p : TrackerPass) : Bool :=
  p.messages.any (messageCreates x)

/-! ## Claim C4: agent status derivation -/

/-- Assistant message holding one computer tool call still in the call
phase. -/
def pendingCallMessage : UIMessage :=
  { id := "m1", role := .assistant
    parts := some [.toolInvocation
      { toolCallId := "t1", toolName := "computer", state := .call
        args := { action := .screenshot } }] }

/-- Assistant message whose single tool call carries a result. -/
def resolvedCallMessage : UIMessage :=
  { id := "m2", role := .assistant
    parts := some [.toolInvocation
      { toolCallId := "t1", toolName := "computer", state := .result
        args := { action := .screenshot }
        result := some (.str "done") }] }

/-- Claim C4, counterexample: with the transport in the error status, a
stream holding a call-phase tool invocation derives `idle`, not
`executing` — the hard-error rule takes precedence over the pending-call
rule, so `executing` does not hold regardless of transport status. -/
theorem agent_status_error_counterexample :
    deriveAgentStatus [pendingCallMessage] (some .error) = .idle ∧
    deriveAgentStatus [pendingCallMessage] (some .error) ≠ .executing := by
  decide

/-- Claim C4 (amended): a stream holding a call-phase tool invocation
derives `executing` for every transport status other than error, provided
the last message is from the user or the assistant (a transport error
derives `idle` instead); and a stream whose last message is from the
assistant, with no call-phase invocation anywhere, the last message's
tools all resolved, and transport status ready, derives `idle`. -/
theorem agent_status_derivation (messages : List UIMessage)
    (chatStatus : Option ChatStatus) :
    (hasAnyPendingTool messages = true →
      chatStatus ≠ some ChatStatus.error →
      (∃ m, messages.getLast? = some m ∧
        (m.role = Role.user ∨ m.role = Role.assistant)) →
      deriveAgentStatus messages chatStatus = .executing) ∧
    ((∃ m, messages.getLast? = some m ∧ m.role = Role.assistant) →
      hasAnyPendingTool messages = false →
      lastMessageAllToolsComplete messages = true →
      chatStatus = some ChatStatus.ready →
      deriveAgentStatus messages chatStatus = .idle) := by
  constructor
  · rintro hpend herr ⟨m, hlast, hrole⟩
    have herr' : (chatStatus == some ChatStatus.error) = false := by
      cases h : chatStatus == some ChatStatus.error
      · rfl
      · exact absurd (by simpa using h) herr
    unfold deriveAgentStatus
    rw [hlast]
    simp only [herr', if_false, Bool.false_eq_true]
    rcases hrole with hrole | hrole
    · have : (m.role == Role.assistant) = false := by
        rw [hrole]; rfl
      simp [this, hrole, hpend]
    · simp [hrole, hpend]
  · rintro ⟨m, hlast, hrole⟩ hpend hcomplete hready
    unfold deriveAgentStatus
    rw [hlast, hready]
    simp [hrole, hpend, hcomplete]

/-- Claim C4 witness: the amended rules at concrete streams — a pending
call with streaming transport derives `executing`; a fully resolved
assistant message with ready transport derives `idle`. -/
theorem agent_status_derivation_witness :
    deriveAgentStatus [pendingCallMessage] (some .streaming) = .executing ∧
    deriveAgentStatus [resolvedCallMessage] (some .ready) = .idle := by
  constructor
  · exact (agent_status_derivation [pendingCallMessage] (some .streaming)).1
      (by decide) (by decide) ⟨pendingCallMessage, by decide, by decide⟩
  · exact (agent_status_derivation [resolvedCallMessage] (some .ready)).2
      ⟨resolvedCallMessage, by decide, by decide⟩ (by decide) (by decide) rfl

/-! ## Claim C1: exactly-once materialization and counts recount -/

/-- Ids after an add: the appended event's id at the end. -/
theorem addEvent_ids (st : EventStore) (e : AgentEvent) :
    (eventStoreReducer st (.addEvent e)).events.map AgentEvent.id =
      st.events.map AgentEvent.id ++ [e.id] := by
  simp [eventStoreReducer]

/-- Ids after an update: unchanged, because the patch spread never touches
the id field. -/
theorem updateEvent_ids (st : EventStore) (i : String) (u : UpdatePatch) :
    (eventStoreReducer st (.updateEvent i u)).events.map AgentEvent.id =
      st.events.map AgentEvent.id := by
  simp only [eventStoreReducer, List.map_map]
  refine List.map_congr_left fun e _ => ?_
  by_cases h : e.id = i <;> simp [h, applyPatch]

/-- Tracker invariant: materialized event ids are unique, the applied set
restricted to call phases matches the materialized ids exactly, and the
counts field is a full recount of the event list. -/
def TrackerInv (s : TrackerState) : Prop :=
  (trackerIds s).Nodup ∧
  (∀ x, (x, ToolPhase.call) ∈ s.processed ↔ x ∈ trackerIds s) ∧
  s.store.counts = calculateEventCounts s.store.events

/-- The initial tracker state satisfies the invariant. -/
theorem trackerInv_initial : TrackerInv initialTrackerState := by
  refine ⟨by simp [trackerIds, initialTrackerState, initialEventStore], ?_, rfl⟩
  intro x
  simp [trackerIds, initialTrackerState, initialEventStore]

/-- Membership of call-phase pairs after marking a call pair applied. -/
theorem mem_processed_cons_call (processed : List (String × ToolPhase))
    (ids : List String) (i : String)
    (hproc : ∀ x, (x, ToolPhase.call) ∈ processed ↔ x ∈ ids) (x : String) :
    ((x, ToolPhase.call) ∈ (i, ToolPhase.call) :: processed) ↔
      x ∈ ids ++ [i] := by
  simp only [List.mem_cons, List.mem_append, List.mem_singleton,
    Prod.mk.injEq, and_true]
  rw [hproc x]
  tauto

/-- Membership of call-phase pairs after marking a result pair applied. -/
theorem mem_processed_cons_result (processed : List (String × ToolPhase))
    (i : String) (x : String) :
    ((x, ToolPhase.call) ∈ (i, ToolPhase.result) :: processed) ↔
      (x, ToolPhase.call) ∈ processed := by
  simp [Prod.mk.injEq]

/-- Processing one tool-invocation delta preserves the invariant, and the
materialized ids grow exactly by the delta's id when it is an unseen
event-creating call. -/
theorem processInvocation_spec (now : Int) (s : TrackerState)
    (inv : ToolInvocation) (h : TrackerInv s) :
    TrackerInv (processInvocation now s inv) ∧
    (∀ x, x ∈ trackerIds (processInvocation now s inv) ↔
      x ∈ trackerIds s ∨
        (invocationCreates inv = true ∧ inv.toolCallId = x)) := by
  obtain ⟨hnodup, hproc, hcounts⟩ := h
  by_cases hc : (inv.toolCallId, inv.state) ∈ s.processed
  · have hc' : s.processed.contains (inv.toolCallId, inv.state) = true := by
      simpa using hc
    rw [show processInvocation now s inv = s by
      simp only [processInvocation, hc', if_true]]
    refine ⟨⟨hnodup, hproc, hcounts⟩, fun x => ?_⟩
    constructor
    · exact Or.inl
    · rintro (hx | ⟨hcr, rfl⟩)
      · exact hx
      · have hcall : inv.state = .call := by
          rcases hst : inv.state
          · rfl
          · rw [invocationCreates, hst] at hcr; simp at hcr
        rw [hcall] at hc
        exact (hproc inv.toolCallId).1 hc
  · have hc' : s.processed.contains (inv.toolCallId, inv.state) = false := by
      simpa using hc
    rcases hst : inv.state with _ | _
    · -- call phase
      have hkey : (inv.toolCallId, ToolPhase.call) ∉ s.processed := by
        rw [← hst]; exact hc
      have hnotmem : inv.toolCallId ∉ trackerIds s := fun hm =>
        hkey ((hproc _).2 hm)
      have hcr : invocationCreates inv =
          (inv.toolName == "computer" || inv.toolName == "bash") := by
        rw [invocationCreates, hst]; simp
      by_cases ht1 : inv.toolName = "computer"
      · have hstep : processInvocation now s inv =
            { processed := (inv.toolCallId, ToolPhase.call) :: s.processed
              startTimes := mapSet s.startTimes inv.toolCallId now
              store := eventStoreReducer s.store
                (.addEvent (computerEventOf now inv)) } := by
          rw [hst] at hc'
          simp only [processInvocation, hst, hc', Bool.false_eq_true, if_false]
          rw [if_pos ht1]
        rw [hstep]
        have hids : trackerIds
            { processed := (inv.toolCallId, ToolPhase.call) :: s.processed
              startTimes := mapSet s.startTimes inv.toolCallId now
              store := eventStoreReducer s.store
                (.addEvent (computerEventOf now inv)) } =
            trackerIds s ++ [inv.toolCallId] := by
          simp [trackerIds, addEvent_ids, computerEventOf]
        have hcrt : invocationCreates inv = true := by
          rw [hcr, ht1]; simp
        refine ⟨⟨?_, ?_, rfl⟩, ?_⟩
        · rw [hids]; simp [List.nodup_append, hnodup, hnotmem]
        · intro x
          rw [hids]
          exact mem_processed_cons_call s.processed (trackerIds s)
            inv.toolCallId hproc x
        · intro x
          rw [hids]
          simp only [List.mem_append, List.mem_singleton, hcrt, true_and]
          rw [eq_comm]
      · by_cases ht2 : inv.toolName = "bash"
        · have hstep : processInvocation now s inv =
              { processed := (inv.toolCallId, ToolPhase.call) :: s.processed
                startTimes := mapSet s.startTimes inv.toolCallId now
                store := eventStoreReducer s.store
                  (.addEvent (bashEventOf now inv)) } := by
            rw [hst] at hc'
            simp only [processInvocation, hst, hc', Bool.false_eq_true,
              if_false]
            rw [if_neg ht1, if_pos ht2]
          rw [hstep]
          have hids : trackerIds
              { processed := (inv.toolCallId, ToolPhase.call) :: s.processed
                startTimes := mapSet s.startTimes inv.toolCallId now
                store := eventStoreReducer s.store
                  (.addEvent (bashEventOf now inv)) } =
              trackerIds s ++ [inv.toolCallId] := by
            simp [trackerIds, addEvent_ids, bashEventOf]
          have hcrt : invocationCreates inv = true := by
            rw [hcr, ht2]; simp
          refine ⟨⟨?_, ?_, rfl⟩, ?_⟩
          · rw [hids]; simp [List.nodup_append, hnodup, hnotmem]
          · intro x
            rw [hids]
            exact mem_processed_cons_call s.processed (trackerIds s)
              inv.toolCallId hproc x
          · intro x
            rw [hids]
            simp only [List.mem_append, List.mem_singleton, hcrt, true_and]
            rw [eq_comm]
        · have hstep : processInvocation now s inv =
              { s with startTimes := mapSet s.startTimes inv.toolCallId now } := by
            rw [hst] at hc'
            simp only [processInvocation, hst, hc', Bool.false_eq_true,
              if_false]
            rw [if_neg ht1, if_neg ht2]
          rw [hstep]
          have hcrf : invocationCreates inv = false := by
            rw [hcr]
            simp [ht1, ht2]
          refine ⟨⟨hnodup, hproc, hcounts⟩, fun x => ?_⟩
          simp [trackerIds, hcrf]
    · -- result phase
      have hstep : processInvocation now s inv =
          { processed := (inv.toolCallId, ToolPhase.result) :: s.processed
            startTimes := mapDelete s.startTimes inv.toolCallId
            store := eventStoreReducer s.store
              (.updateEvent inv.toolCallId (resultPatchOf now s inv)) } := by
        rw [hst] at hc'
        simp only [processInvocation, hst, hc', Bool.false_eq_true, if_false]
      rw [hstep]
      have hids : trackerIds
          { processed := (inv.toolCallId, ToolPhase.result) :: s.processed
            startTimes := mapDelete s.startTimes inv.toolCallId
            store := eventStoreReducer s.store
              (.updateEvent inv.toolCallId (resultPatchOf now s inv)) } =
          trackerIds s := by
        simp [trackerIds, updateEvent_ids]
      have hcrf : invocationCreates inv = false := by
        rw [invocationCreates, hst]; simp
      refine ⟨⟨?_, ?_, rfl⟩, ?_⟩
      · rw [hids]; exact hnodup
      · intro x
        rw [hids,
          mem_processed_cons_result s.processed inv.toolCallId x]
        exact hproc x
      · intro x
        rw [hids]
        simp [hcrf]

/-- Processing one part preserves the invariant with the same id
characterization. -/
theorem processPart_spec (now : Int) (s : TrackerState) (p : MsgPart)
    (h : TrackerInv s) :
    TrackerInv (processPart now s p) ∧
    (∀ x, x ∈ trackerIds (processPart now s p) ↔
      x ∈ trackerIds s ∨ partCreates x p = true) := by
  cases p with
  | toolInvocation inv =>
    obtain ⟨h1, h2⟩ := processInvocation_spec now s inv h
    refine ⟨h1, fun x => ?_⟩
    show x ∈ trackerIds (processInvocation now s inv) ↔
      x ∈ trackerIds s ∨ partCreates x (MsgPart.toolInvocation inv) = true
    rw [h2 x]
    simp [partCreates]
  | text t => exact ⟨h, fun x => by simp [processPart, partCreates]⟩
  | otherPart => exact ⟨h, fun x => by simp [processPart, partCreates]⟩

/-- Folding the part processor over a part list preserves the invariant;
ids after are ids before plus the creating ids of the list. -/
theorem processParts_spec (now : Int) (ps : List MsgPart) (s : TrackerState)
    (h : TrackerInv s) :
    TrackerInv (ps.foldl (processPart now) s) ∧
    (∀ x, x ∈ trackerIds (ps.foldl (processPart now) s) ↔
      x ∈ trackerIds s ∨ ps.any (partCreates x) = true) := by
  induction ps generalizing s with
  | nil => exact ⟨h, fun x => by simp⟩
  | cons p ps ih =>
    obtain ⟨h1, h2⟩ := processPart_spec now s p h
    obtain ⟨h3, h4⟩ := ih (processPart now s p) h1
    refine ⟨h3, fun x => ?_⟩
    rw [List.foldl_cons] at *
    rw [h4 x, h2 x]
    simp [List.any_cons]
    tauto

/-- Processing one message preserves the invariant with the same id
characterization. -/
theorem processMessage_spec (now : Int) (s : TrackerState) (m : UIMessage)
    (h : TrackerInv s) :
    TrackerInv (processMessage now s m) ∧
    (∀ x, x ∈ trackerIds (processMessage now s m) ↔
      x ∈ trackerIds s ∨ messageCreates x m = true) := by
  unfold processMessage messageCreates
  cases hp : m.parts with
  | none => exact ⟨h, fun x => by simp [hp]⟩
  | some ps =>
    obtain ⟨h1, h2⟩ := processParts_spec now ps s h
    exact ⟨h1, fun x => by rw [h2 x]; simp [hp]⟩

/-- Folding the message processor over a stream preserves the invariant;
ids after are ids before plus the creating ids of the stream. -/
theorem processMessages_spec (now : Int) (messages : List UIMessage)
    (s : TrackerState) (h : TrackerInv s) :
    TrackerInv (messages.foldl (processMessage now) s) ∧
    (∀ x, x ∈ trackerIds (messages.foldl (processMessage now) s) ↔
      x ∈ trackerIds s ∨ messages.any (messageCreates x) = true) := by
  induction messages generalizing s with
  | nil => exact ⟨h, fun x => by simp⟩
  | cons m ms ih =>
    obtain ⟨h1, h2⟩ := processMessage_spec now s m h
    obtain ⟨h3, h4⟩ := ih (processMessage now s m) h1
    refine ⟨h3, fun x => ?_⟩
    rw [List.foldl_cons] at *
    rw [h4 x, h2 x]
    simp [List.any_cons]
    tauto

/-- Setting the agent status changes neither events, ids, the applied set
nor the counts recount. -/
theorem setStatus_preserves (s : TrackerState) (st : AgentStatus)
    (h : TrackerInv s) :
    TrackerInv { s with
      store := eventStoreReducer s.store (.setAgentStatus st) } ∧
    trackerIds { s with
      store := eventStoreReducer s.store (.setAgentStatus st) } =
      trackerIds s := by
  obtain ⟨h1, h2, h3⟩ := h
  exact ⟨⟨h1, h2, h3⟩, rfl⟩

/-- One tracker tick on a non-error status preserves the invariant; ids
after are ids before plus the creating ids of the replayed stream. -/
theorem trackerTick_spec (now : Int) (messages : List UIMessage)
    (chatStatus : Option ChatStatus) (s : TrackerState)
    (herr : chatStatus ≠ some ChatStatus.error) (h : TrackerInv s) :
    TrackerInv (trackerTick now messages chatStatus s) ∧
    (∀ x, x ∈ trackerIds (trackerTick now messages chatStatus s) ↔
      x ∈ trackerIds s ∨ messages.any (messageCreates x) = true) := by
  have herr' : (chatStatus == some ChatStatus.error) = false := by
    cases hb : chatStatus == some ChatStatus.error
    · rfl
    · exact absurd (by simpa using hb) herr
  unfold trackerTick
  rw [herr']
  simp only [Bool.false_eq_true, if_false]
  obtain ⟨h1, h2⟩ := setStatus_preserves s
    (deriveAgentStatus messages chatStatus) h
  obtain ⟨h3, h4⟩ := processMessages_spec now messages _ h1
  exact ⟨h3, fun x => by rw [h4 x, h2]⟩

/-- Running the tracker over non-error passes from an invariant state
preserves the invariant; ids after are ids before plus the creating ids
of all passes. -/
theorem runTrackerFrom_spec (passes : List TrackerPass) (s : TrackerState)
    (herr : ∀ p ∈ passes, p.chatStatus ≠ some ChatStatus.error)
    (h : TrackerInv s) :
    TrackerInv (runTrackerFrom s passes) ∧
    (∀ x, x ∈ trackerIds (runTrackerFrom s passes) ↔
      x ∈ trackerIds s ∨ ∃ p ∈ passes, passCreates x p = true) := by
  induction passes generalizing s with
  | nil => exact ⟨h, fun x => by simp [runTrackerFrom]⟩
  | cons p ps ih =>
    obtain ⟨h1, h2⟩ := trackerTick_spec p.now p.messages p.chatStatus s
      (herr p (List.mem_cons_self p ps)) h
    obtain ⟨h3, h4⟩ := ih (trackerTick p.now p.messages p.chatStatus s)
      (fun q hq => herr q (List.mem_cons_of_mem p hq)) h1
    refine ⟨h3, fun x => ?_⟩
    unfold runTrackerFrom at *
    rw [List.foldl_cons, h4 x, h2 x]
    constructor
    · rintro ((hx | hcr) | ⟨q, hq, hcq⟩)
      · exact Or.inl hx
      · exact Or.inr ⟨p, List.mem_cons_self p ps, hcr⟩
      · exact Or.inr ⟨q, List.mem_cons_of_mem p hq, hcq⟩
    · rintro (hx | ⟨q, hq, hcq⟩)
      · exact Or.inl (Or.inl hx)
      · rcases List.mem_cons.1 hq with rfl | hq'
        · exact Or.inl (Or.inr hcq)
        · exact Or.inr ⟨q, hq', hcq⟩

/-- Claim C1: over any sequence of replay passes (the same deltas may
recur arbitrarily often within and across passes) on a transport that has
not reported an error, the store ends with unique event ids; an id is
materialized exactly when some pass carries a recognized call-phase delta
for it, and then by exactly one event; and after every pass the counts
field equals a full recount of the event list. -/
theorem tracker_replay_exactly_once (passes : List TrackerPass)
    (herr : ∀ p ∈ passes, p.chatStatus ≠ some ChatStatus.error) :
    (trackerIds (runTracker passes)).Nodup ∧
    (∀ x, x ∈ trackerIds (runTracker passes) ↔
      ∃ p ∈ passes, passCreates x p = true) ∧
    (∀ x, (∃ p ∈ passes, passCreates x p = true) →
      (trackerIds (runTracker passes)).count x = 1) ∧
    (∀ n, (runTracker (passes.take n)).store.counts =
      calculateEventCounts (runTracker (passes.take n)).store.events) := by
  obtain ⟨hinv, hmem⟩ := runTrackerFrom_spec passes initialTrackerState herr
    trackerInv_initial
  have hids0 : trackerIds initialTrackerState = [] := rfl
  have hmem' : ∀ x, x ∈ trackerIds (runTracker passes) ↔
      ∃ p ∈ passes, passCreates x p = true := by
    intro x
    rw [show runTracker passes = runTrackerFrom initialTrackerState passes
      from rfl, hmem x, hids0]
    simp
  refine ⟨hinv.1, hmem', ?_, ?_⟩
  · intro x hx
    exact List.count_eq_one_of_mem hinv.1 ((hmem' x).2 hx)
  · intro n
    have herrn : ∀ p ∈ passes.take n, p.chatStatus ≠ some ChatStatus.error :=
      fun p hp => herr p (List.take_subset n passes hp)
    exact (runTrackerFrom_spec (passes.take n) initialTrackerState herrn
      trackerInv_initial).1.2.2

/-- Concrete replay: two passes, the second repeating the first pass's
call delta twice more alongside its result delta. -/
def samplePasses : List TrackerPass :=
  [ { now := 5
      messages := [pendingCallMessage]
      chatStatus := some .streaming }
  , { now := 9
      messages := [pendingCallMessage, pendingCallMessage,
        resolvedCallMessage]
      chatStatus := some .ready } ]

/-- Claim C1 witness: on the concrete duplicated replay, the theorem
applies (no pass carries the error status) and the store indeed holds the
single event id. -/
theorem tracker_replay_exactly_once_witness :
    (trackerIds (runTracker samplePasses)).Nodup ∧
    trackerIds (runTracker samplePasses) = ["t1"] := by
  constructor
  · exact (tracker_replay_exactly_once samplePasses (by decide)).1
  · decide

/-! ## JavaScript string utilities shared by the embeddings -/

/-- Whitespace code units recognized by JavaScript string `trim` and the
regex class backslash-s (ASCII plus the common Unicode space code
points). -/
def isJsWhitespaceCode (c : Nat) : Bool :=
  c = 9 || c = 10 || c = 11 || c = 12 || c = 13 || c = 32 || c = 160 ||
    c = 0x1680 || (0x2000 ≤ c && c ≤ 0x200A) || c = 0x2028 || c = 0x2029 ||
    c = 0x202F || c = 0x205F || c = 0x3000 || c = 0xFEFF

/-- JavaScript string `trim` on code units. -/
def jsTrim (s : JSStr) : JSStr :=
  ((s.dropWhile isJsWhitespaceCode).reverse.dropWhile
    isJsWhitespaceCode).reverse

/-- ASCII lowercasing of a character (the strings inspected by the error
helpers are ASCII; JavaScript `toLowerCase` agrees on them). -/
def lowerChar (c : Char) : Char :=
  if 65 ≤ c.toNat ∧ c.toNat ≤ 90 then Char.ofNat (c.toNat + 32) else c

/-- JavaScript `toLowerCase` restricted to ASCII. -/
def toLower (s : String) : String := String.mk (s.data.map lowerChar)

/-- JavaScript `String.prototype.includes`: substring occurrence. -/
def strContains (hay needle : String) : Bool :=
  (List.range (hay.data.length + 1)).any fun i =>
    needle.data.isPrefixOf (hay.data.drop i)

/-- JavaScript `parseInt(s, 10)`: skip leading whitespace, optional
sign, then a non-empty digit run; `none` models NaN. -/
def jsParseInt (s : String) : Option Int :=
  let cs := s.data.dropWhile fun c =>
    c = ' ' || c = '\t' || c = '\n' || c = '\r'
  let signed : Int × List Char :=
    match cs with
    | '-' :: r => (-1, r)
    | '+' :: r => (1, r)
    | _ => (1, cs)
  let digits := signed.2.takeWhile Char.isDigit
  if digits.isEmpty then none
  else some (signed.1 *
    (digits.foldl (fun acc c => acc * 10 + (c.toNat - 48)) 0 : Nat))

/-- Numeric value of a non-empty decimal digit run. -/
def digitsToNat (digits : List Char) : Nat :=
  digits.foldl (fun acc c => acc * 10 + (c.toNat - 48)) 0

/-! ## Error helpers (src/unnamed/part_006, error-helpers) -/

/-- Value of one response header: string, number, or another shape. -/
inductive HeaderVal
  | str (s : String)
  | num (n : Int)
  | other
deriving DecidableEq, Repr

/-- Nested error of a wrapped retry error (`lastError`). -/
structure LastErr where
  statusCode : Option Int := none
  responseHeaders : Option (List (String × HeaderVal)) := none
deriving DecidableEq, Repr

/-- Error object as inspected by the helpers: an object with optional
status, optional nested error, and a message when it is an `Error`
instance. Non-object errors (strings, numbers) are outside this model;
the rate-limit path only ever reaches the helpers with objects. -/
structure ErrObj where
  status : Option Int := none
  lastError : Option LastErr := none
  message : Option String := none
deriving DecidableEq, Repr

/-- The message text the helpers work on:
`error instanceof Error ? error.message : String(error)`, the latter
being the object placeholder rendering. -/
def errorMessageOf (e : ErrObj) : String :=
  e.message.getD "[object Object]"

/-- Rate-limit detection, from `isRateLimitError`: status 429, nested
status code 429, or one of the recognized phrases in the lowercased
message. -/
def isRateLimitError (e : ErrObj) : Bool :=
  if e.status = some 429 then true
  else if (match e.lastError with
    | some le => le.statusCode == some 429
    | none => false) then true
  else
    let lower := toLower (errorMessageOf e)
    strContains lower "rate limit" ||
      strContains lower "exceed the rate limit" ||
      strContains lower "429" ||
      strContains lower "rate_limit" ||
      (strContains lower "failed after" && strContains lower "rate limit")

/-- Explicit retry-after from the nested response headers, from the first
block of `extractRetryAfter`: a string value is parsed (NaN falls
through), a number value is returned as is. -/
def headerRetryAfter (e : ErrObj) : Option Int :=
  match e.lastError with
  | none => none
  | some le =>
    match le.responseHeaders with
    | none => none
    | some headers =>
      match headers.find? fun kv => kv.1 == "retry-after" with
      | none => none
      | some (_, .str s) => jsParseInt s
      | some (_, .num n) => some n
      | some (_, .other) => none

/-- Attempt to match the pattern `retry[_\s-]?after[:\s]+(\d+)` (the
case-insensitive retry-after regex) at the head of an already lowercased
character list, returning the captured number. -/
def matchRetryAfterAt (cs : List Char) : Option Nat :=
  if ("retry".data).isPrefixOf cs then
    let cs1 := cs.drop 5
    let tryTail : List Char → Option Nat := fun t =>
      if ("after".data).isPrefixOf t then
        let t2 := t.drop 5
        let sep := t2.takeWhile fun c =>
          c = ':' || c = ' ' || c = '\t' || c = '\n' || c = '\r'
        if sep.isEmpty then none
        else
          let digits := (t2.drop sep.length).takeWhile Char.isDigit
          if digits.isEmpty then none else some (digitsToNat digits)
      else none
    match cs1 with
    | c :: rest =>
      if c = '_' || c = '-' || c = ' ' || c = '\t' || c = '\n' || c = '\r'
      then
        match tryTail rest with
        | some n => some n
        | none => tryTail cs1
      else tryTail cs1
    | [] => tryTail cs1
  else none

/-- Leftmost match of the retry-after regex over a character list. -/
def scanRetryAfter : List Char → Option Nat
  | [] => none
  | c :: rest =>
    match matchRetryAfterAt (c :: rest) with
    | some n => some n
    | none => scanRetryAfter rest

/-- The `message.match(/retry[_\s-]?after[:\s]+(\d+)/i)` capture, parsed:
scan the lowercased message for the pattern. -/
def regexRetryAfter (msg : String) : Option Nat :=
  scanRetryAfter (toLower msg).data

/-- The per-minute phrase test of `extractRetryAfter` (checked verbatim
and lowercased). -/
def minutePhrase (msg : String) : Bool :=
  strContains msg "per minute" || strContains (toLower msg) "per minute"

/-- The per-hour phrase test of `extractRetryAfter` (case-sensitive in
the source). -/
def hourPhrase (msg : String) : Bool := strContains msg "per hour"

/-- The per-day phrase test of `extractRetryAfter` (case-sensitive in
the source). -/
def dayPhrase (msg : String) : Bool := strContains msg "per day"

/-- The final fallback test of `extractRetryAfter`: a generic rate-limit
or 429 mention. -/
def rateLimitMention (msg : String) : Bool :=
  strContains (toLower msg) "rate limit" || strContains msg "429"

/-- Retry-after extraction, from `extractRetryAfter`: explicit header
value first, then the message regex, then the per-minute, per-hour and
per-day phrases (the latter two matched case-sensitively, as in the
source), then 60 for a generic rate-limit or 429 mention, else nothing. -/
def extractRetryAfter (e : ErrObj) : Option Int :=
  match headerRetryAfter e with
  | some v => some v
  | none =>
    let msg := errorMessageOf e
    match regexRetryAfter msg with
    | some n => some (n : Int)
    | none =>
      if minutePhrase msg then some 60
      else if hourPhrase msg then some (3600 + 60)
      else if dayPhrase msg then some (86400 + 300)
      else if rateLimitMention msg then some 60
      else none

/-- Wait resolution as used by the retry controller
(`extractRetryAfter(error) || 65` in `handleRateLimit`): the JavaScript
or-default turns both a missing and a zero extraction into 65. -/
def resolveRetryAfter (e : ErrObj) : Int :=
  match extractRetryAfter e with
  | some v => if v = 0 then 65 else v
  | none => 65

/-! ## Claim C8: wait-duration resolution -/

/-- Error whose message mentions a rate limit but carries no explicit
retry-after and none of the per-minute, per-hour, per-day phrases. -/
def errRateLimitPhrase : ErrObj :=
  { message := some "you exceed the rate limit now" }

/-- Error with status 429 whose message mentions nothing recognizable. -/
def errStatusOnly : ErrObj :=
  { status := some 429, message := some "too many requests" }

/-- Claim C8, counterexample: two errors having no explicit retry-after
and none of the three phrases resolve to different waits (60 versus 65),
so the final resolution step is not a single fixed default: a generic
rate-limit mention yields 60 while a bare 429 status yields the 65
fallback. -/
theorem wait_resolution_default_counterexample :
    headerRetryAfter errRateLimitPhrase = none ∧
    headerRetryAfter errStatusOnly = none ∧
    regexRetryAfter (errorMessageOf errRateLimitPhrase) = none ∧
    regexRetryAfter (errorMessageOf errStatusOnly) = none ∧
    minutePhrase (errorMessageOf errRateLimitPhrase) = false ∧
    hourPhrase (errorMessageOf errRateLimitPhrase) = false ∧
    dayPhrase (errorMessageOf errRateLimitPhrase) = false ∧
    minutePhrase (errorMessageOf errStatusOnly) = false ∧
    hourPhrase (errorMessageOf errStatusOnly) = false ∧
    dayPhrase (errorMessageOf errStatusOnly) = false ∧
    resolveRetryAfter errRateLimitPhrase = 60 ∧
    resolveRetryAfter errStatusOnly = 65 := by
  decide

/-- Claim C8 (amended): the wait is resolved in order — explicit
retry-after header value, then the message retry-after field, then the
phrase heuristic (per minute 60, per hour 3660, per day 86700), then 60
for a message merely mentioning a rate limit or 429, and the fixed
65-second default only when extraction yields nothing (or the extracted
value is zero, which the or-default also replaces). -/
theorem wait_resolution_order (e : ErrObj) :
    (∀ v, headerRetryAfter e = some v → extractRetryAfter e = some v) ∧
    (headerRetryAfter e = none →
      ∀ n, regexRetryAfter (errorMessageOf e) = some n →
      extractRetryAfter e = some (n : Int)) ∧
    (headerRetryAfter e = none →
      regexRetryAfter (errorMessageOf e) = none →
      minutePhrase (errorMessageOf e) = true →
      extractRetryAfter e = some 60) ∧
    (headerRetryAfter e = none →
      regexRetryAfter (errorMessageOf e) = none →
      minutePhrase (errorMessageOf e) = false →
      hourPhrase (errorMessageOf e) = true →
      extractRetryAfter e = some 3660) ∧
    (headerRetryAfter e = none →
      regexRetryAfter (errorMessageOf e) = none →
      minutePhrase (errorMessageOf e) = false →
      hourPhrase (errorMessageOf e) = false →
      dayPhrase (errorMessageOf e) = true →
      extractRetryAfter e = some 86700) ∧
    (headerRetryAfter e = none →
      regexRetryAfter (errorMessageOf e) = none →
      minutePhrase (errorMessageOf e) = false →
      hourPhrase (errorMessageOf e) = false →
      dayPhrase (errorMessageOf e) = false →
      rateLimitMention (errorMessageOf e) = true →
      extractRetryAfter e = some 60) ∧
    (headerRetryAfter e = none →
      regexRetryAfter (errorMessageOf e) = none →
      minutePhrase (errorMessageOf e) = false →
      hourPhrase (errorMessageOf e) = false →
      dayPhrase (errorMessageOf e) = false →
      rateLimitMention (errorMessageOf e) = false →
      extractRetryAfter e = none) ∧
    (extractRetryAfter e = none → resolveRetryAfter e = 65) ∧
    (∀ v, extractRetryAfter e = some v → v ≠ 0 →
      resolveRetryAfter e = v) := by
  refine ⟨?_, ?_, ?_, ?_, ?_, ?_, ?_, ?_, ?_⟩
  · intro v hv
    simp [extractRetryAfter, hv]
  · intro hh n hr
    simp [extractRetryAfter, hh, hr]
  · intro hh hr hm
    simp [extractRetryAfter, hh, hr, hm]
  · intro hh hr hm hhour
    simp [extractRetryAfter, hh, hr, hm, hhour]
  · intro hh hr hm hhour hd
    simp [extractRetryAfter, hh, hr, hm, hhour, hd]
  · intro hh hr hm hhour hd hmention
    simp [extractRetryAfter, hh, hr, hm, hhour, hd, hmention]
  · intro hh hr hm hhour hd hmention
    simp [extractRetryAfter, hh, hr, hm, hhour, hd, hmention]
  · intro hnone
    simp [resolveRetryAfter, hnone]
  · intro v hv hvz
    simp [resolveRetryAfter, hv, hvz]

/-- Claim C8 witness: the amended resolution at concrete errors —
an explicit `retry after: 5` field resolves to 5; the per-hour phrase
resolves to 3660; a bare 429 status resolves to the 65 default. -/
theorem wait_resolution_order_witness :
    extractRetryAfter { message := some "Please retry after: 5 sec" } =
      some 5 ∧
    extractRetryAfter { message := some "limit per hour" } = some 3660 ∧
    resolveRetryAfter errStatusOnly = 65 := by
  refine ⟨?_, ?_, ?_⟩
  · exact (wait_resolution_order
      { message := some "Please retry after: 5 sec" }).2.1 (by decide) 5
      (by decide)
  · exact (wait_resolution_order
      { message := some "limit per hour" }).2.2.2.1 (by decide) (by decide)
      (by decide) (by decide)
  · exact (wait_resolution_order errStatusOnly).2.2.2.2.2.2.2.1 (by decide)

/-! ## Retry controller (useRateLimit, src/lib/hooks/use-event-store.ts) -/

/-- Which countdown interval is installed: the retrying interval of the
with-message branch, or the plain interval of the no-message branch. -/
inductive IntervalKind
  | retrying
  | plain
deriving DecidableEq, Repr

/-- The rendered rate-limit state (`RateLimitState`); `none` at the
React-state level is the controller's idle state. -/
structure RLView where
  isWaiting : Bool
  countdown : Int
  message : Option JSStr
deriving DecidableEq, Repr

/-- Full controller state: the interval ref, the React state, the retry
callback ref (modeled as present or cleared), a scheduled resend timeout
carrying its captured message, and the history of resend invocations. -/
structure RLState where
  interval : Option IntervalKind
  view : Option RLView
  retryCallback : Bool
  pendingTimeout : Option JSStr
  fired : List JSStr
deriving DecidableEq, Repr

/-- Controller state before any rate limit: no interval, no view, no
callback, nothing fired. -/
def rlInitial : RLState :=
  { interval := none, view := none, retryCallback := false
    pendingTimeout := none, fired := [] }

/-- The `cancel` callback: clear the interval, reset the state to null
and drop the retry callback. A scheduled resend timeout is not cleared
(the source never calls `clearTimeout`); it is the callback-ref check
inside the timeout that prevents a resend. -/
def rlCancel (s : RLState) : RLState :=
  { s with interval := none, view := none, retryCallback := false }

/-- One firing of the installed interval callback. The plain interval
(no-message branch) clears itself at one and counts down otherwise. The
retrying interval additionally schedules the resend timeout when it
reaches one, capturing the message, provided the message is truthy and
the callback ref is still set, and leaves the zero countdown visible. -/
def rlTick (s : RLState) : RLState :=
  match s.interval with
  | none => s
  | some .plain =>
    match s.view with
    | none => { s with interval := none, view := none }
    | some v =>
      if v.countdown ≤ 1 then { s with interval := none, view := none }
      else { s with view := some { v with countdown := v.countdown - 1 } }
  | some .retrying =>
    match s.view with
    | none => { s with interval := none, view := none }
    | some v =>
      if v.countdown ≤ 1 then
        { s with
          interval := none
          pendingTimeout :=
            if (match v.message with
              | some m => !m.isEmpty
              | none => false) && s.retryCallback
            then v.message else none
          view := some { v with countdown := 0, isWaiting := true } }
      else { s with view := some { v with countdown := v.countdown - 1 } }

/-- One firing of the scheduled resend timeout: re-check the callback ref
and the captured message, invoke the resend at most once, then reset the
state and drop the callback (the resets happen unconditionally in the
source's timeout body). -/
def rlFireTimeout (s : RLState) : RLState :=
  match s.pendingTimeout with
  | none => s
  | some m =>
    { s with
      fired := s.fired ++ (if s.retryCallback && !m.isEmpty then [m] else [])
      view := none
      retryCallback := false
      pendingTimeout := none }

/-- JavaScript truthiness routing of an optional string: absent or empty
collapses to `none` (the `if (!messageText)` check). -/
def truthyOpt (o : Option JSStr) : Option JSStr :=
  match o with
  | some t => if t.isEmpty then none else some t
  | none => none

/-- Extraction of the message to resend, from the body of
`handleRateLimit` (lines 169 to 197): the last user message's string
content, else its first text part, else the trimmed input fallback;
a falsy (absent or empty) result is `none`, routing to the no-retry
branch. -/
def messageTextOf (messages : List UIMessage) (inputFallback : JSStr) :
    Option JSStr :=
  let lastUserMessage :=
    (messages.filter fun m => m.role == Role.user).getLast?
  let fromMsg : Option JSStr :=
    match lastUserMessage with
    | none => none
    | some m =>
      match m.content with
      | .strC s => some s
      | _ =>
        match m.parts with
        | none => none
        | some ps =>
          match ps.find? fun p =>
            match p with
            | .text _ => true
            | _ => false with
          | some (.text t) => some t
          | _ => none
  let afterFallback :=
    if (match fromMsg with
        | some t => t.isEmpty
        | none => true) &&
        !inputFallback.isEmpty && !(jsTrim inputFallback).isEmpty
    then some (jsTrim inputFallback) else fromMsg
  truthyOpt afterFallback

/-- The `handleRateLimit` entry point: ignore non-rate-limit errors;
resolve the wait; with an extractable message install the retrying
interval, set the callback ref and show the countdown; without one show
the countdown only and install the plain interval. -/
def handleRateLimit (error : ErrObj) (messages : List UIMessage)
    (inputFallback : JSStr) (s : RLState) : RLState :=
  if !isRateLimitError error then s
  else
    let retryAfter := resolveRetryAfter error
    match messageTextOf messages inputFallback with
    | none =>
      { s with
        view := some
          { isWaiting := true, countdown := retryAfter, message := none }
        interval := some .plain }
    | some m =>
      { s with
        retryCallback := true
        view := some
          { isWaiting := true, countdown := retryAfter, message := some m }
        interval := some .retrying }

/-- The time-driven occurrences the controller is exposed to after entry:
interval ticks, the resend timeout firing, and user cancels. -/
inductive RLEvent
  | tick
  | fireTimeout
  | cancel
deriving DecidableEq, Repr

/-- One occurrence. -/
def rlStep (s : RLState) (e : RLEvent) : RLState :=
  match e with
  | .tick => rlTick s
  | .fireTimeout => rlFireTimeout s
  | .cancel => rlCancel s

/-- A run of occurrences. -/
def runRL (s : RLState) (evs : List RLEvent) : RLState :=
  evs.foldl rlStep s

/-! ## Claim C3: cancel safety and exactly-once resend -/

/-- Unfolding of a step at a tick occurrence. -/
theorem rlStep_tick (s : RLState) : rlStep s .tick = rlTick s := rfl

/-- Unfolding of a step at a timeout occurrence. -/
theorem rlStep_fire (s : RLState) : rlStep s .fireTimeout = rlFireTimeout s :=
  rfl

/-- Unfolding of a run at an empty trace. -/
theorem runRL_nil (s : RLState) : runRL s [] = s := rfl

/-- Unfolding of a run at a nonempty trace. -/
theorem runRL_cons (s : RLState) (e : RLEvent) (evs : List RLEvent) :
    runRL s (e :: evs) = runRL (rlStep s e) evs := rfl

/-- Quiet controller: no installed interval and no retry callback. -/
def RLQuiet (s : RLState) : Prop :=
  s.interval = none ∧ s.retryCallback = false

/-- A quiet controller stays quiet and never fires, whatever occurrence
arrives (including a stale resend timeout: the cleared callback ref
blocks it). -/
theorem rlStep_quiet (s : RLState) (e : RLEvent) (h : RLQuiet s) :
    RLQuiet (rlStep s e) ∧ (rlStep s e).fired = s.fired := by
  obtain ⟨h1, h2⟩ := h
  cases e with
  | tick =>
    rw [rlStep_tick, show rlTick s = s by unfold rlTick; rw [h1]]
    exact ⟨⟨h1, h2⟩, rfl⟩
  | fireTimeout =>
    rw [rlStep_fire]
    unfold rlFireTimeout
    cases hp : s.pendingTimeout with
    | none => exact ⟨⟨h1, h2⟩, rfl⟩
    | some m =>
      rw [h2]
      exact ⟨⟨h1, rfl⟩, by simp⟩
  | cancel => exact ⟨⟨rfl, rfl⟩, rfl⟩

/-- Runs from a quiet controller never change the fired history. -/
theorem runRL_quiet (evs : List RLEvent) (s : RLState) (h : RLQuiet s) :
    (runRL s evs).fired = s.fired := by
  induction evs generalizing s with
  | nil => rfl
  | cons e evs ih =>
    obtain ⟨h1, h2⟩ := rlStep_quiet s e h
    rw [runRL_cons]
    calc (runRL (rlStep s e) evs).fired = (rlStep s e).fired := ih _ h1
      _ = s.fired := h2

/-- Truthiness routing only lets non-empty strings through. -/
theorem truthyOpt_not_empty (o : Option JSStr) (m : JSStr)
    (h : truthyOpt o = some m) : m.isEmpty = false := by
  unfold truthyOpt at h
  rcases o with _ | t
  · cases h
  · by_cases ht : t.isEmpty
    · simp [ht] at h
    · simp [ht] at h
      rw [← h]
      exact Bool.of_not_eq_true ht

/-- A successfully extracted resend message is never the empty string. -/
theorem messageTextOf_not_empty (messages : List UIMessage)
    (input : JSStr) (m : JSStr)
    (h : messageTextOf messages input = some m) : m.isEmpty = false := by
  unfold messageTextOf at h
  exact truthyOpt_not_empty _ _ h

/-- Ticking a running retrying countdown down from k to zero arms the
resend timeout with the captured message. -/
theorem rl_ticks_arm (k : Nat) (hk : 1 ≤ k) (m : JSStr)
    (hm : m.isEmpty = false) (s : RLState) (w : Bool)
    (hint : s.interval = some .retrying)
    (hcb : s.retryCallback = true)
    (hview : s.view = some
      { isWaiting := w, countdown := (k : Int), message := some m }) :
    runRL s (List.replicate k .tick) =
      { s with interval := none, pendingTimeout := some m
               view := some
                 { isWaiting := true, countdown := 0
                   message := some m } } := by
  induction k generalizing s w with
  | zero => omega
  | succ k ih =>
    by_cases hk1 : k = 0
    · subst hk1
      rw [show List.replicate 1 RLEvent.tick = [RLEvent.tick] from rfl,
        runRL_cons, runRL_nil, rlStep_tick]
      unfold rlTick
      rw [hint, hview]
      simp [hm, hcb]
    · have hk2 : 1 ≤ k := by omega
      rw [List.replicate_succ, runRL_cons, rlStep_tick]
      have hstep : rlTick s =
          { s with
            view := some { isWaiting := w, countdown := (k : Int), message := some m } } := by
        unfold rlTick
        rw [hint, hview]
        have hlt : ¬ (((k : Int) + 1) ≤ 1) := by omega
        push_cast
        rw [if_neg hlt]
        norm_num
      rw [hstep]
      exact ih hk2 _ w hint hcb rfl

/-- Claim C3: first, cancel is safe at any time — after a cancel (at any
countdown, with or without an active countdown, even with a resend
timeout already scheduled) no later tick or timeout ever invokes the
resend callback; second, entering the rate-limit wait with an extracted
message and an n-second wait, then letting the countdown reach zero and
the resend timeout fire, invokes the resend callback exactly once with
exactly the captured last-user-message text, whatever occurrences
follow. -/
theorem rate_limit_cancel_and_resend :
    (∀ (s : RLState) (evs : List RLEvent),
      (runRL (rlCancel s) evs).fired = s.fired) ∧
    (∀ (error : ErrObj) (messages : List UIMessage) (input : JSStr)
      (s : RLState) (n : Nat) (m : JSStr) (rest : List RLEvent),
      isRateLimitError error = true →
      messageTextOf messages input = some m →
      resolveRetryAfter error = (n : Int) →
      1 ≤ n →
      (runRL (handleRateLimit error messages input s)
        (List.replicate n RLEvent.tick ++ RLEvent.fireTimeout :: rest)).fired
        = s.fired ++ [m]) := by
  constructor
  · intro s evs
    exact runRL_quiet evs (rlCancel s) ⟨rfl, rfl⟩
  · intro error messages input s n m rest hrl hmt hra hn
    have hm : m.isEmpty = false := messageTextOf_not_empty _ _ _ hmt
    have hentry : handleRateLimit error messages input s =
        { s with retryCallback := true
                 view := some { isWaiting := true, countdown := (n : Int)
                                message := some m }
                 interval := some .retrying } := by
      unfold handleRateLimit
      rw [hrl, hmt, hra]
      rfl
    rw [hentry]
    rw [show (List.replicate n RLEvent.tick ++ RLEvent.fireTimeout :: rest) =
      (List.replicate n RLEvent.tick ++ [RLEvent.fireTimeout]) ++ rest by
      simp]
    unfold runRL
    rw [List.foldl_append, List.foldl_append]
    have harm := rl_ticks_arm n hn m hm
      { s with retryCallback := true
               view := some { isWaiting := true, countdown := (n : Int)
                              message := some m }
               interval := some .retrying } true rfl rfl rfl
    unfold runRL at harm
    rw [harm]
    rw [show List.foldl rlStep
        { s with retryCallback := true, interval := none
                 pendingTimeout := some m
                 view := some { isWaiting := true, countdown := 0
                                message := some m } }
        [RLEvent.fireTimeout] =
      rlFireTimeout
        { s with retryCallback := true, interval := none
                 pendingTimeout := some m
                 view := some { isWaiting := true, countdown := 0
                                message := some m } } from rfl]
    have hfire : rlFireTimeout
        { s with retryCallback := true, interval := none
                 pendingTimeout := some m
                 view := some { isWaiting := true, countdown := 0
                                message := some m } } =
        { s with retryCallback := false, interval := none
                 pendingTimeout := none, view := none
                 fired := s.fired ++ [m] } := by
      unfold rlFireTimeout
      simp [hm]
    rw [hfire]
    have hq := runRL_quiet rest
      { s with retryCallback := false, interval := none
               pendingTimeout := none, view := none
               fired := s.fired ++ [m] } ⟨rfl, rfl⟩
    unfold runRL at hq
    rw [hq]

/-- Concrete rate-limit error carrying an explicit five-second
retry-after field, as in the specification's example. -/
def errRetryFive : ErrObj :=
  { status := some 429, message := some "429 retry after: 5" }

/-- Concrete stream whose last user message says resend me. -/
def resendMessages : List UIMessage :=
  [{ id := "u1", role := .user, content := .strC (jsStr "resend me") }]

/-- Claim C3 witness: cancel from a mid-countdown state (countdown one,
callback armed) fires nothing under further ticks and timeouts, and the
concrete five-second countdown fires exactly the captured message. -/
theorem rate_limit_cancel_and_resend_witness :
    (runRL (rlCancel
      { interval := some .retrying
        view := some { isWaiting := true, countdown := 1
                       message := some (jsStr "resend me") }
        retryCallback := true, pendingTimeout := none, fired := [] })
      [RLEvent.tick, RLEvent.fireTimeout]).fired = [] ∧
    (runRL (handleRateLimit errRetryFive resendMessages [] rlInitial)
      (List.replicate 5 RLEvent.tick ++ RLEvent.fireTimeout :: [])).fired
      = [jsStr "resend me"] := by
  constructor
  · exact rate_limit_cancel_and_resend.1
      { interval := some .retrying
        view := some { isWaiting := true, countdown := 1
                       message := some (jsStr "resend me") }
        retryCallback := true, pendingTimeout := none, fired := [] }
      [RLEvent.tick, RLEvent.fireTimeout]
  · have h := rate_limit_cancel_and_resend.2 errRetryFive resendMessages []
      rlInitial 5 (jsStr "resend me") [] (by decide) (by decide) (by decide)
      (by decide)
    simpa using h

/-! ## Session persistence (SessionStorage, src/unnamed/part_012) -/

/-- Stored session record (the `StoredSession` interface): the unit of
persistence. -/
structure StoredSession where
  id : String
  name : JSStr
  createdAt : Int
  updatedAt : Int
  messages : List UIMessage
  events : List AgentEvent
  eventIds : List String
  sandboxId : Option String
  version : String
deriving DecidableEq, Repr

/-- Current schema version, from `SESSION_STORAGE_VERSION`. -/
def SESSION_STORAGE_VERSION : String := "1.0.0"

/-- Retained-session ceiling, from the `maxSessions` field. -/
def maxSessions : Nat := 50

/-- Ordinal fallback name, from `generateSessionName`. -/
def generateSessionName (index : Nat) : JSStr :=
  jsStr "Session " ++ jsStr (toString (index + 1))

/-- The storage medium: availability, a capacity with an abstract
serialized-size measure (a `setItem` succeeds exactly when the value fits,
failing with the quota error otherwise), and the ambient sources of
freshness used by migration (`crypto.randomUUID` and `Date.now`). -/
structure Medium where
  available : Bool
  capacity : Nat
  sizeOf : List StoredSession → Nat
  freshId : String
  now : Int

/-- Contents of the sessions key: `none` models an absent key. Parsing is
modeled as the identity on the typed list (serialization is faithful). -/
abbrev StorageState := Option (List StoredSession)

/-- Notifications dispatched to the UI layer on degradation. -/
inductive Notif
  | quotaWarning
  | quotaError
deriving DecidableEq, Repr

/-- JavaScript `array.slice(-n)`: the last `n` elements (all of them when
fewer). -/
def jsSliceNeg (n : Nat) (l : List StoredSession) : List StoredSession :=
  l.drop (l.length - n)

/-- Schema migration, from `migrateSession`: fill falsy fields with safe
defaults (a fresh id, the ordinal name, the current instant, empty
arrays — the arrays of the typed model are always present) and tag with
the current version. -/
def migrateSession (m : Medium) (s : StoredSession) : StoredSession :=
  { id := if s.id = "" then m.freshId else s.id
    name := if s.name = [] then generateSessionName 0 else s.name
    createdAt := if s.createdAt = 0 then m.now else s.createdAt
    updatedAt := if s.updatedAt = 0 then m.now else s.updatedAt
    messages := s.messages
    events := s.events
    eventIds := s.eventIds
    sandboxId := match s.sandboxId with
      | some x => if x = "" then none else some x
      | none => none
    version := SESSION_STORAGE_VERSION }

/-- Load, from `loadSessions`: empty when the medium is unavailable or
the key absent; otherwise the parsed list with version-mismatched records
migrated in place. -/
def loadSessions (m : Medium) (st : StorageState) : List StoredSession :=
  if !m.available then []
  else
    match st with
    | none => []
    | some parsed =>
      parsed.map fun s =>
        if s.version = "" ∨ s.version ≠ SESSION_STORAGE_VERSION then
          migrateSession m s
        else s

/-- The event-stripping pass of the quota fallback: drop the event
payload (keeping `eventIds`) from every retained session except the five
most recent. -/
def stripOldEvents (recent : List StoredSession) : List StoredSession :=
  recent.mapIdx fun index session =>
    if index < recent.length - 5 then { session with events := [] }
    else session

/-- Save, from `saveSessions`: no-op when the medium is unavailable; cap
at the retention ceiling and store; on a quota failure retry with the
ceiling halved and old event payloads stripped, dispatching the quota
warning on success; if the retry also fails, remove the key and dispatch
the quota error. -/
def saveSessions (m : Medium) (st : StorageState)
    (sessions : List StoredSession) : StorageState × List Notif :=
  if !m.available then (st, [])
  else
    let limitedSessions := jsSliceNeg maxSessions sessions
    if m.sizeOf limitedSessions ≤ m.capacity then (some limitedSessions, [])
    else
      let recentSessions := jsSliceNeg (maxSessions / 2) sessions
      let optimizedSessions := stripOldEvents recentSessions
      if m.sizeOf optimizedSessions ≤ m.capacity then
        (some optimizedSessions, [.quotaWarning])
      else (none, [.quotaError])

/-! ## Claim C7: persistence round-trip and retention ceiling -/

/-- Claim C7: when the capped list fits, a save emits no notification and
a load returns exactly the retained sessions — all of them when at most
the ceiling many were saved, and otherwise the last ceiling-many by array
position (insertion order), the oldest dropped. Records carrying the
current schema version round-trip unchanged in every field (hence in
id, name, messages and events in particular). -/
theorem persistence_round_trip (m : Medium) (st : StorageState)
    (sessions : List StoredSession)
    (hav : m.available = true)
    (hver : ∀ s ∈ sessions, s.version = SESSION_STORAGE_VERSION)
    (hfit : m.sizeOf (jsSliceNeg maxSessions sessions) ≤ m.capacity) :
    (saveSessions m st sessions).2 = [] ∧
    loadSessions m (saveSessions m st sessions).1 =
      jsSliceNeg maxSessions sessions ∧
    (sessions.length ≤ maxSessions →
      loadSessions m (saveSessions m st sessions).1 = sessions) := by
  have hsave : saveSessions m st sessions =
      (some (jsSliceNeg maxSessions sessions), []) := by
    unfold saveSessions
    rw [hav]
    simp [hfit]
  have hmem : ∀ s ∈ jsSliceNeg maxSessions sessions,
      s.version = SESSION_STORAGE_VERSION := fun s hs =>
    hver s (List.drop_subset _ _ hs)
  have hload : loadSessions m (some (jsSliceNeg maxSessions sessions)) =
      jsSliceNeg maxSessions sessions := by
    unfold loadSessions
    rw [hav]
    simp only [Bool.not_true, Bool.false_eq_true, if_false]
    have heach : ∀ s ∈ jsSliceNeg maxSessions sessions,
        (if s.version = "" ∨ s.version ≠ SESSION_STORAGE_VERSION then
          migrateSession m s
        else s) = s := by
      intro s hs
      rw [if_neg]
      rw [hmem s hs]
      decide
    rw [List.map_congr_left heach]
    exact List.map_id (jsSliceNeg maxSessions sessions)
  refine ⟨by rw [hsave], by rw [hsave]; exact hload, ?_⟩
  intro hlen
  have hall : jsSliceNeg maxSessions sessions = sessions := by
    unfold jsSliceNeg
    have hz : sessions.length - maxSessions = 0 := by omega
    rw [hz]
    exact List.drop_zero sessions
  rw [hsave]
  rw [hload, hall]

/-- Concrete one-session list and roomy medium for the round-trip
witness. -/
def roomyMedium : Medium :=
  { available := true, capacity := 10, sizeOf := fun l => l.length
    freshId := "fresh", now := 7 }

/-- Concrete stored session at the current schema version. -/
def storedA : StoredSession :=
  { id := "s1", name := jsStr "hello", createdAt := 1, updatedAt := 2
    messages := [{ id := "u1", role := .user
                   content := .strC (jsStr "hello") }]
    events := [sampleEventA], eventIds := ["a"], sandboxId := none
    version := SESSION_STORAGE_VERSION }

/-- Claim C7 witness: one saved session round-trips verbatim. -/
theorem persistence_round_trip_witness :
    loadSessions roomyMedium (saveSessions roomyMedium none [storedA]).1 =
      [storedA] :=
  (persistence_round_trip roomyMedium none [storedA] rfl (by decide)
    (by decide)).2.2 (by decide)

/-! ## Claim C2: quota degradation cascade -/

/-- Claim C2: once the capped save fails on capacity, the adapter first
attempts the reduced set — the ceiling halved (the last 25 by array
position) with the event payload stripped from every retained session but
the five most recent, eventIds kept, the five most recent untouched; if
that fits it stores it and dispatches exactly the quota warning; only
when the reduced set still exceeds capacity does it clear the key and
dispatch the quota error — so a cleared key proves the stripped-save
attempt itself failed. -/
theorem quota_degradation (m : Medium) (st : StorageState)
    (sessions : List StoredSession)
    (recent optimized : List StoredSession)
    (hav : m.available = true)
    (hrecent : recent = jsSliceNeg (maxSessions / 2) sessions)
    (hopt : optimized = stripOldEvents recent)
    (hover : m.capacity < m.sizeOf (jsSliceNeg maxSessions sessions)) :
    (m.sizeOf optimized ≤ m.capacity →
      saveSessions m st sessions = (some optimized, [Notif.quotaWarning])) ∧
    (m.capacity < m.sizeOf optimized →
      saveSessions m st sessions = (none, [Notif.quotaError])) ∧
    ((saveSessions m st sessions).1 = none →
      m.capacity < m.sizeOf optimized) ∧
    optimized.length = recent.length ∧
    (∀ i (hi : i < recent.length) (hi2 : i < optimized.length),
      (optimized.get ⟨i, hi2⟩).eventIds = (recent.get ⟨i, hi⟩).eventIds ∧
      (i < recent.length - 5 → (optimized.get ⟨i, hi2⟩).events = []) ∧
      (recent.length - 5 ≤ i →
        optimized.get ⟨i, hi2⟩ = recent.get ⟨i, hi⟩)) := by
  subst hrecent
  subst hopt
  have hnofit : ¬ (m.sizeOf (jsSliceNeg maxSessions sessions) ≤ m.capacity) := by
    omega
  have hget : ∀ i (hi : i < (jsSliceNeg (maxSessions / 2) sessions).length)
      (hi2 : i < (stripOldEvents (jsSliceNeg (maxSessions / 2) sessions)).length),
      (stripOldEvents (jsSliceNeg (maxSessions / 2) sessions)).get ⟨i, hi2⟩ =
        (if i < (jsSliceNeg (maxSessions / 2) sessions).length - 5 then
          { (jsSliceNeg (maxSessions / 2) sessions).get ⟨i, hi⟩ with
            events := [] }
        else (jsSliceNeg (maxSessions / 2) sessions).get ⟨i, hi⟩) := by
    intro i hi hi2
    exact List.get_mapIdx (jsSliceNeg (maxSessions / 2) sessions) _ i hi
  refine ⟨?_, ?_, ?_, ?_, ?_⟩
  · intro hle
    unfold saveSessions
    rw [hav]
    simp [hnofit, hle]
  · intro hgt
    have hle' : ¬ (m.sizeOf
        (stripOldEvents (jsSliceNeg (maxSessions / 2) sessions)) ≤
        m.capacity) := by omega
    unfold saveSessions
    rw [hav]
    simp [hnofit, hle']
  · intro hnone
    by_contra hcon
    push_neg at hcon
    have heq : saveSessions m st sessions =
        (some (stripOldEvents (jsSliceNeg (maxSessions / 2) sessions)),
          [Notif.quotaWarning]) := by
      unfold saveSessions
      rw [hav]
      simp [hnofit, hcon]
    rw [heq] at hnone
    cases hnone
  · exact List.length_mapIdx
  · intro i hi hi2
    rw [hget i hi hi2]
    by_cases hcase : i < (jsSliceNeg (maxSessions / 2) sessions).length - 5
    · rw [if_pos hcase]
      exact ⟨rfl, fun _ => rfl, fun hge => absurd hcase (by omega)⟩
    · rw [if_neg hcase]
      exact ⟨rfl, fun hlt => absurd hlt hcase, fun _ => rfl⟩

/-- Plain stored session without events, for the quota witness. -/
def plainStored (i : String) : StoredSession :=
  { id := i, name := jsStr "n", createdAt := 1, updatedAt := 1
    messages := [], events := [], eventIds := [], sandboxId := none
    version := SESSION_STORAGE_VERSION }

/-- Six sessions whose oldest carries the only event payload. -/
def sixSessions : List StoredSession :=
  [{ plainStored "s1" with events := [sampleEventA], eventIds := ["a"] },
    plainStored "s2", plainStored "s3", plainStored "s4",
    plainStored "s5", plainStored "s6"]

/-- Zero-capacity medium whose size measure counts stored events, so any
event payload overflows it. -/
def tightMedium : Medium :=
  { available := true, capacity := 0
    sizeOf := fun l => (l.map fun s => s.events.length).sum
    freshId := "fresh", now := 7 }

/-- Claim C2 witness: saving the six sessions overflows, the stripped
retry fits, and the adapter stores the reduced set with exactly the
warning notification — the oldest session's events gone, its eventIds
kept. -/
theorem quota_degradation_witness :
    saveSessions tightMedium none sixSessions =
      (some (stripOldEvents (jsSliceNeg (maxSessions / 2) sixSessions)),
        [Notif.quotaWarning]) ∧
    (stripOldEvents (jsSliceNeg (maxSessions / 2) sixSessions)).map
      (fun s => s.events.length) = [0, 0, 0, 0, 0, 0] ∧
    (stripOldEvents (jsSliceNeg (maxSessions / 2) sixSessions)).map
      (fun s => s.eventIds) = [["a"], [], [], [], [], []] := by
  refine ⟨?_, by decide, by decide⟩
  exact (quota_degradation tightMedium none sixSessions
    (jsSliceNeg (maxSessions / 2) sixSessions)
    (stripOldEvents (jsSliceNeg (maxSessions / 2) sixSessions))
    rfl rfl rfl (by decide)).1 (by decide)

/-! ## Session naming (src/unnamed/part_004 and session-store) -/

/-- JavaScript `replace(/\s+/g, ' ')` on code units, via a flag marking
whether the previous unit belonged to a whitespace run: every maximal
whitespace run becomes a single space. -/
def collapseWsAux : Bool → JSStr → JSStr
  | _, [] => []
  | prevWs, c :: rest =>
    if isJsWhitespaceCode c then
      if prevWs then collapseWsAux true rest
      else 32 :: collapseWsAux true rest
    else c :: collapseWsAux false rest

/-- JavaScript `replace(/\s+/g, ' ')` on code units. -/
def collapseWs (s : JSStr) : JSStr := collapseWsAux false s

/-- Text extraction from the first user message's content or parts, from
the body of `generateSessionNameFromMessages` before the cleanup block:
string content with non-blank trim; else the first string or text-tagged
item of legacy array content; else the first text part whose trimmed text
is non-empty. The empty string models the untouched `text` variable. -/
def firstTextPart : List MsgPart → JSStr
  | [] => []
  | .text t :: rest =>
    if t.isEmpty then firstTextPart rest
    else
      let partText := jsTrim t
      if partText.isEmpty then firstTextPart rest else partText
  | _ :: rest => firstTextPart rest

/-- Text extraction, continued: the content branches. -/
def extractRawText (firstUserMessage : UIMessage) : JSStr :=
  let fromContent : JSStr :=
    match firstUserMessage.content with
    | .strC s => if (jsTrim s).isEmpty then [] else s
    | .arrC items =>
      if items.isEmpty then []
      else
        match items.find? fun item =>
          match item with
          | .strItem _ => true
          | .objItem ty _ => ty == some "text"
          | .otherItem => false with
        | some (.strItem s) => if (jsTrim s).isEmpty then [] else s
        | some (.objItem _ txt) =>
          match txt with
          | some t =>
            let extracted := jsTrim t
            if extracted.isEmpty then [] else extracted
          | none => []
        | _ => []
    | .undef => []
  if fromContent.isEmpty then
    match firstUserMessage.parts with
    | none => []
    | some ps => firstTextPart ps
  else fromContent

/-- Cleanup and truncation, from the final block of
`generateSessionNameFromMessages`: whitespace-collapse and trim, then a
raw 30-code-unit slice (re-trimmed) when longer than 30; an empty result
collapses to `none`. -/
def cleanAndTruncate (text : JSStr) : Option JSStr :=
  let cleaned := jsTrim (collapseWs text)
  let truncated :=
    if 30 < cleaned.length then jsTrim (cleaned.take 30) else cleaned
  if truncated.isEmpty then none else some truncated

/-- Name derivation from messages, from
`generateSessionNameFromMessages`: the first user message's extracted
text, cleaned and truncated; `none` when extraction fails. -/
def generateSessionNameFromMessages (messages : List UIMessage) :
    Option JSStr :=
  match messages.find? fun m => m.role == Role.user with
  | none => none
  | some firstUserMessage =>
    let text := extractRawText firstUserMessage
    if text.isEmpty then none else cleanAndTruncate text

/-- Session index record, from the `ChatSession` interface. -/
structure ChatSession where
  id : String
  name : JSStr
  createdAt : Int
  updatedAt : Int
  messageIds : List String
  eventIds : List String
  sandboxId : Option String
deriving DecidableEq, Repr

/-- Session store state, from the `SessionStoreState` interface
(src/lib/context/session-store.tsx). -/
structure SessionStoreState where
  sessions : List ChatSession
  activeSessionId : Option String
  isLoading : Bool
deriving DecidableEq, Repr

/-- Name resolution inside `saveSessionMessages` (lines 242 to 260): with
messages present, a successful extraction always becomes the name; a
failed extraction falls back to the ordinal name only while the session
is still named New Session, and otherwise keeps the current name. -/
def resolveSessionName (state : SessionStoreState) (sessionId : String)
    (session : ChatSession) (messages : List UIMessage) : JSStr :=
  if 0 < messages.length then
    match generateSessionNameFromMessages messages with
    | some n => n
    | none =>
      if session.name = jsStr "New Session" then
        match state.sessions.findIdx? fun s => s.id = sessionId with
        | some sessionIndex => generateSessionName sessionIndex
        | none => generateSessionName state.sessions.length
      else session.name
  else session.name

/-- The state transition of `saveSessionMessages` (lines 234 to 269): an
unknown session id is a warned no-op; otherwise the session is updated
with the resolved name, the message id index and the save instant, and
`UPDATE_SESSION` replaces it in the list. The persistence continuation
(lines 271 to 282) writes the same updated record with the full message
array and is covered by the storage model. -/
def saveSessionMessagesState (now : Int) (state : SessionStoreState)
    (sessionId : String) (messages : List UIMessage) : SessionStoreState :=
  match state.sessions.find? fun s => s.id == sessionId with
  | none => state
  | some session =>
    let sessionName := resolveSessionName state sessionId session messages
    let updated : ChatSession :=
      { session with
        name := sessionName
        messageIds := messages.map fun msg => msg.id
        updatedAt := now }
    { state with
      sessions := state.sessions.map fun s =>
        if s.id = updated.id then updated else s }

/-- Well-formed UTF-16: every high surrogate is followed by a low
surrogate and no low surrogate appears unpaired (validity of text
boundaries). -/
def validUtf16 : JSStr → Bool
  | [] => true
  | c :: rest =>
    if 0xD800 ≤ c ∧ c ≤ 0xDBFF then
      match rest with
      | c2 :: rest2 => (0xDC00 ≤ c2 && c2 ≤ 0xDFFF) && validUtf16 rest2
      | [] => false
    else (!(0xDC00 ≤ c && c ≤ 0xDFFF)) && validUtf16 rest

/-! ## Claim C5: derived session name -/

/-- Twenty-nine ASCII characters followed by a surrogate pair (a
two-code-unit emoji): 31 code units in all. -/
def surrogateText : JSStr := List.replicate 29 97 ++ [0xD83D, 0xDE00]

/-- User message carrying the surrogate-pair text as its text part. -/
def msgSurrogate : UIMessage :=
  { id := "u1", role := .user, parts := some [.text surrogateText] }

/-- One-session store still carrying the default name. -/
def freshSessionState : SessionStoreState :=
  { sessions := [{ id := "sid", name := jsStr "New Session"
                   createdAt := 0, updatedAt := 0, messageIds := []
                   eventIds := [], sandboxId := none }]
    activeSessionId := some "sid", isLoading := false }

/-- User message saying alpha. -/
def msgAlpha : UIMessage :=
  { id := "u1", role := .user, content := .strC (jsStr "alpha") }

/-- User message saying beta. -/
def msgBeta : UIMessage :=
  { id := "u2", role := .user, content := .strC (jsStr "beta") }

/-- Claim C5, counterexample: the 30-unit truncation is a raw code-unit
slice — on a valid 31-unit text ending in a surrogate pair the derived
name ends with the unpaired high surrogate 0xD83D, an invalid text
boundary; and a second `saveSessionMessages` call whose first user
message differs re-derives and overwrites the previously derived name
(alpha becomes beta). -/
theorem session_name_counterexample :
    generateSessionNameFromMessages [msgSurrogate] =
      some (List.replicate 29 97 ++ [0xD83D]) ∧
    validUtf16 surrogateText = true ∧
    validUtf16 (List.replicate 29 97 ++ [0xD83D]) = false ∧
    ((saveSessionMessagesState 2
        (saveSessionMessagesState 1 freshSessionState "sid" [msgAlpha])
        "sid" [msgBeta]).sessions.map fun s => s.name) = [jsStr "beta"] ∧
    ((saveSessionMessagesState 1 freshSessionState "sid"
        [msgAlpha]).sessions.map fun s => s.name) = [jsStr "alpha"] ∧
    jsStr "beta" ≠ jsStr "alpha" := by
  decide

/-- Claim C5 (amended): the derived name is the whitespace-collapsed,
trimmed text of the first user message, truncated to at most 30 UTF-16
code units by a raw slice that may split a surrogate pair; the derivation
depends only on the first user message; and each `saveSessionMessages`
call with a successful extraction overwrites the name with that
extraction (so the name is stable across calls exactly while the first
user message's extracted text is stable), while a failed extraction
leaves a previously derived (non-default) name untouched. -/
theorem session_name_derivation :
    (∀ (messages : List UIMessage) (n : JSStr),
      generateSessionNameFromMessages messages = some n →
      n.length ≤ 30) ∧
    (∀ (m1 m2 : List UIMessage),
      (m1.find? fun m => m.role == Role.user) =
        (m2.find? fun m => m.role == Role.user) →
      generateSessionNameFromMessages m1 =
        generateSessionNameFromMessages m2) ∧
    (∀ (state : SessionStoreState) (sessionId : String)
        (session : ChatSession) (messages : List UIMessage) (n : JSStr)
        (now : Int),
      (state.sessions.find? fun s => s.id == sessionId) = some session →
      generateSessionNameFromMessages messages = some n →
      messages ≠ [] →
      (saveSessionMessagesState now state sessionId messages).sessions =
        state.sessions.map fun s =>
          if s.id = session.id then
            { session with
              name := n
              messageIds := messages.map fun msg => msg.id
              updatedAt := now }
          else s) ∧
    (∀ (state : SessionStoreState) (sessionId : String)
        (session : ChatSession) (messages : List UIMessage) (now : Int),
      (state.sessions.find? fun s => s.id == sessionId) = some session →
      generateSessionNameFromMessages messages = none →
      session.name ≠ jsStr "New Session" →
      (saveSessionMessagesState now state sessionId messages).sessions =
        state.sessions.map fun s =>
          if s.id = session.id then
            { session with
              messageIds := messages.map fun msg => msg.id
              updatedAt := now }
          else s) := by
  have htrim_le : ∀ s : JSStr, (jsTrim s).length ≤ s.length := by
    intro s
    unfold jsTrim
    calc ((s.dropWhile isJsWhitespaceCode).reverse.dropWhile
          isJsWhitespaceCode).reverse.length
        = ((s.dropWhile isJsWhitespaceCode).reverse.dropWhile
            isJsWhitespaceCode).length := List.length_reverse _
      _ ≤ (s.dropWhile isJsWhitespaceCode).reverse.length :=
          (List.dropWhile_sublist _).length_le
      _ = (s.dropWhile isJsWhitespaceCode).length := List.length_reverse _
      _ ≤ s.length := (List.dropWhile_sublist _).length_le
  have hclean : ∀ (t n : JSStr), cleanAndTruncate t = some n →
      n.length ≤ 30 := by
    intro t n h
    dsimp only [cleanAndTruncate] at h
    by_cases hlong : 30 < (jsTrim (collapseWs t)).length
    · rw [if_pos hlong] at h
      by_cases he : ((jsTrim ((jsTrim (collapseWs t)).take 30)).isEmpty
          = true)
      · rw [if_pos he] at h
        cases h
      · rw [if_neg he] at h
        have hn : jsTrim ((jsTrim (collapseWs t)).take 30) = n :=
          Option.some.inj h
        rw [← hn]
        calc (jsTrim ((jsTrim (collapseWs t)).take 30)).length
            ≤ ((jsTrim (collapseWs t)).take 30).length := htrim_le _
          _ ≤ 30 := by
              rw [List.length_take]
              omega
    · rw [if_neg hlong] at h
      by_cases he : ((jsTrim (collapseWs t)).isEmpty = true)
      · rw [if_pos he] at h
        cases h
      · rw [if_neg he] at h
        have hn : jsTrim (collapseWs t) = n := Option.some.inj h
        rw [← hn]
        omega
  refine ⟨?_, ?_, ?_, ?_⟩
  · intro messages n h
    unfold generateSessionNameFromMessages at h
    rcases hf : messages.find? fun m => m.role == Role.user with _ | fu <;>
      rw [hf] at h
    · cases h
    · dsimp only [] at h
      by_cases he : ((extractRawText fu).isEmpty = true)
      · rw [if_pos he] at h
        cases h
      · rw [if_neg he] at h
        exact hclean _ _ h
  · intro m1 m2 h
    unfold generateSessionNameFromMessages
    rw [h]
  · intro state sessionId session messages n now hfind hgen hne
    have hres : resolveSessionName state sessionId session messages = n := by
      unfold resolveSessionName
      rw [if_pos (List.length_pos.mpr hne), hgen]
    simp only [saveSessionMessagesState, hfind, hres]
  · intro state sessionId session messages now hfind hgen hnn
    have hres : resolveSessionName state sessionId session messages =
        session.name := by
      unfold resolveSessionName
      by_cases hm : messages = []
      · subst hm
        rw [if_neg (by simp)]
      · rw [if_pos (List.length_pos.mpr hm), hgen, if_neg hnn]
    simp only [saveSessionMessagesState, hfind, hres]

/-- Message saying hi, as in the specification's rename example. -/
def msgHi : UIMessage :=
  { id := "u1", role := .user, content := .strC (jsStr "hi") }

/-- The later long user message of the rename example. -/
def msgLong : UIMessage :=
  { id := "u2", role := .user
    content := .strC (jsStr
      "thinking about it for a really long 40 plus character message") }

/-- Claim C5 witness: a derived name obeys the 30-unit bound; appending
later messages behind the same first user message leaves the derived
name at hi; and a save call with extraction alpha names the session
alpha. -/
theorem session_name_derivation_witness :
    (jsStr "alpha").length ≤ 30 ∧
    generateSessionNameFromMessages [msgHi] =
      generateSessionNameFromMessages [msgHi, msgLong] ∧
    (saveSessionMessagesState 1 freshSessionState "sid"
        [msgAlpha]).sessions =
      freshSessionState.sessions.map fun s =>
        if s.id = "sid" then
          { id := "sid", name := jsStr "alpha", createdAt := 0
            updatedAt := 1, messageIds := ["u1"], eventIds := []
            sandboxId := none }
        else s := by
  refine ⟨?_, ?_, ?_⟩
  · exact session_name_derivation.1 [msgAlpha] (jsStr "alpha") (by decide)
  · exact session_name_derivation.2.1 [msgHi] [msgHi, msgLong] (by decide)
  · exact session_name_derivation.2.2.1 freshSessionState "sid"
      { id := "sid", name := jsStr "New Session", createdAt := 0
        updatedAt := 0, messageIds := [], eventIds := [], sandboxId := none }
      [msgAlpha] (jsStr "alpha") 1 (by decide) (by decide) (by decide)
